import Mathlib

/-!
Calibration chain and frame dispatch of the multi-sensor reconstruction window

A shallow embedding of `MainWindow` from `MutiSensorReconstuction_MainWindow.cpp`:
the per-sensor containers, the calibration run (`performCalibration`), the
persistence of the transformation chain (`saveCalibration`, `loadCalibration`),
the mode flags (`calibrate`, `startReconstruction`, `stopReconstruction`) and the
timer slot `processFrames`.

Conventions of the embedding.

* A `std::vector` indexed by sensor is a function on indices together with the
  common size `numSensors`; only indices below `numSensors` are meaningful.
* An image pointer is an optional image, `none` being the null pointer; copying
  the pixels of one allocated image into another of equal size is copying the
  contents.
* Matrix entries live in an arbitrary semiring `R`, and `RecFusion::Mat4` is a
  4x4 matrix over `R` with the usual product.
* The SDK collaborators are parameters: the result of every `readImage` comes
  from a `Tick`, the outcome of every `Calibration::calibrate` from a
  `Calibrator`, the number formatting of the streams from a `NumCodec`.
* While `performCalibration` waits, the events that `processEvents` delivers are
  timer ticks, each one call of `processFrames`; other slots triggered by the
  user during the wait are not part of a run.
* Message boxes, the labels of the reconstruction preview and the mesh export
  are left out.  A tick that arrives while a message box of `performCalibration`
  is open finds `m_calibrate` cleared, so it writes neither calibration samples
  nor validity flags nor the chain.
* `performCalibration` is reachable only with at least two sensors; for fewer
  the embedding runs the pair loop zero times.
-/

namespace MultiSensor

set_option maxRecDepth 100000

/-- A `RecFusion::Mat4`: a 4x4 matrix, entry `(r, c)` addressed as `M r c`. -/
abbrev Mat4 (R : Type) := Matrix (Fin 4) (Fin 4) R

/-- Outcome of one `Sensor::readImage(depth, color, 40)`: the returned flag and
the contents of the two image buffers after the call. -/
structure Read (F : Type) where
  ok : Bool
  depth : F
  color : F

/-- One timer tick as seen from the sensors: what each `readImage` yields. -/
abbrev Tick (F : Type) := Nat → Read F

/-- A frame handed to `Reconstruction::addFrame`. -/
structure AddedFrame (R F : Type) where
  sensor : Nat
  depth : Option F
  color : Option F
  pose : Mat4 R

/-- The members of `MainWindow` that the calibration controller and the
dispatch loop read or write.  `m_rec` is the reconstruction object, described
by the frames it has been given so far. -/
@[ext]
structure MainWindow (R F : Type) where
  numSensors : Nat
  m_reconstruct : Bool
  m_calibrate : Bool
  m_rec : Option (List (AddedFrame R F))
  m_colorImg : Nat → Option F
  m_depthImg : Nat → Option F
  m_calibImgColor : Nat → Option F
  m_calibImgDepth : Nat → Option F
  m_calibImgValid : Nat → Bool
  m_sensorT : Nat → Mat4 R
  m_imgLabel : Nat → Option F

variable {R F : Type}

/-- Assignment `M(r, c) = v`. -/
def setEntry (M : Mat4 R) (r c : Fin 4) (v : R) : Mat4 R :=
  fun r2 c2 => if r2 = r ∧ c2 = c then v else M r2 c2

/-- The loop nest "Set sensor transformation to identity": for every row `r`,
every column `c` and every sensor `i`, `m_sensorT[i](r, c) = (r == c) ? 1 : 0`. -/
def setIdentity [Zero R] [One R] (n : Nat) (T : Nat → Mat4 R) : Nat → Mat4 R :=
  (List.finRange 4).foldl (fun T1 r =>
    (List.finRange 4).foldl (fun T2 c =>
      (List.range n).foldl (fun T3 i =>
        Function.update T3 i (setEntry (T3 i) r c (if r = c then 1 else 0))) T2) T1) T

/-! ## Construction -/

/-- The constructor, as far as the modelled members go.  `opened i` is the
result of `m_sensor[i]->open()`, `blank` the contents of a freshly allocated
image and `d` a default-constructed `Mat4`.  With fewer than two sensors the
constructor returns before anything is set up. -/
def construct [Zero R] [One R] (numSensors : Nat) (opened : Nat → Bool) (blank : F)
    (d : Mat4 R) : Option (MainWindow R F) :=
  if numSensors < 2 then none
  else
    let img : Nat → Option F := fun i => if i < numSensors ∧ opened i = true then some blank else none
    some
      { numSensors := numSensors
        m_reconstruct := false
        m_calibrate := false
        m_rec := none
        m_colorImg := img
        m_depthImg := img
        m_calibImgColor := img
        m_calibImgDepth := img
        m_calibImgValid := fun _ => false
        m_sensorT := setIdentity numSensors (fun _ => d)
        m_imgLabel := fun _ => none }

/-! ## Frame dispatch -/

/-- The guard at the head of `processFrames`: no sensor has a null depth or
colour image. -/
def allBuffers (s : MainWindow R F) : Bool :=
  (List.range s.numSensors).all (fun i => (s.m_depthImg i).isSome && (s.m_colorImg i).isSome)

/-- The loop "Grab images from sensor": every sensor is read into its buffers. -/
def grabImages (t : Tick F) (s : MainWindow R F) : MainWindow R F :=
  (List.range s.numSensors).foldl (fun s1 i =>
    { s1 with
      m_depthImg := Function.update s1.m_depthImg i (some (t i).depth)
      m_colorImg := Function.update s1.m_colorImg i (some (t i).color) }) s

/-- One iteration of the loop "Process images" for sensor `i`, `ok` being the
result of its read. -/
def processImage (ok : Bool) (s : MainWindow R F) (i : Nat) : MainWindow R F :=
  if !ok then s
  else
    let s1 : MainWindow R F :=
      if s.m_reconstruct && s.m_rec.isSome then
        { s with
          m_rec := s.m_rec.map
            (fun fs => fs ++ [⟨i, s.m_depthImg i, s.m_colorImg i, s.m_sensorT i⟩]) }
      else if s.m_calibrate then
        { s with
          m_calibImgColor := Function.update s.m_calibImgColor i (s.m_colorImg i)
          m_calibImgDepth := Function.update s.m_calibImgDepth i (s.m_depthImg i)
          m_calibImgValid := Function.update s.m_calibImgValid i true }
      else s
    { s1 with m_imgLabel := Function.update s1.m_imgLabel i (s1.m_colorImg i) }

/-- The timer slot `processFrames` for one tick. -/
def processFrames (s : MainWindow R F) (t : Tick F) : MainWindow R F :=
  if !allBuffers s then s
  else
    (List.range s.numSensors).foldl (fun s1 i => processImage (t i).ok s1 i) (grabImages t s)

/-- One call of `QCoreApplication::processEvents()` during a calibration run:
the timer ticks that are due are delivered in order. -/
def processEvents (s : MainWindow R F) (batch : List (Tick F)) : MainWindow R F :=
  batch.foldl processFrames s

/-! ## Mode flags -/

/-- The slot `calibrate`. -/
def calibrate (s : MainWindow R F) : MainWindow R F :=
  { s with m_calibrate := false }

/-- The slot `startReconstruction`: the old reconstruction object is deleted, a
new one is created and `m_reconstruct` is set. -/
def startReconstruction (s : MainWindow R F) : MainWindow R F :=
  { s with m_rec := some [], m_reconstruct := true }

/-- The slot `stopReconstruction`, without the mesh export. -/
def stopReconstruction (s : MainWindow R F) : MainWindow R F :=
  { s with m_reconstruct := false, m_rec := none }

/-! ## Calibration run -/

/-- The two calibration images of one sensor as passed to `Calibration::setImage`. -/
structure CalibImage (F : Type) where
  depth : Option F
  color : Option F

/-- The external calibration routine: for sensor pair `sp` and attempt `i`, given
the images of sensors `sp` and `sp + 1`, either the pairwise transformation
(`calibrate` returned true) or nothing. -/
abbrev Calibrator (R F : Type) := Nat → Nat → CalibImage F → CalibImage F → Option (Mat4 R)

/-- Record of one invocation of `Calibration::calibrate`, with the validity
flags of the two sensors at that moment. -/
structure CalibCall (R F : Type) where
  pair : Nat
  attempt : Nat
  valid0 : Bool
  valid1 : Bool
  img0 : CalibImage F
  img1 : CalibImage F
  result : Option (Mat4 R)

/-- Start of an attempt: both validity flags are reset and `m_calibrate` is set. -/
def beginCapture (sp : Nat) (s : MainWindow R F) : MainWindow R F :=
  { s with
    m_calibImgValid := Function.update (Function.update s.m_calibImgValid (sp + 1) false) sp false
    m_calibrate := true }

/-- The loop `while (!m_calibImgValid[sp] && !m_calibImgValid[sp + 1]) processEvents();`
run against the event batches `env`; `none` when the batches are used up while
the loop is still waiting. -/
def waitSamples (sp : Nat) :
    MainWindow R F → List (List (Tick F)) → Option (MainWindow R F × List (List (Tick F)))
  | s, [] =>
    if !s.m_calibImgValid sp && !s.m_calibImgValid (sp + 1) then none else some (s, [])
  | s, b :: env =>
    if !s.m_calibImgValid sp && !s.m_calibImgValid (sp + 1) then
      waitSamples sp (processEvents s b) env
    else some (s, b :: env)

/-- End of the capture: `m_calibrate = false`. -/
def endCapture (s : MainWindow R F) : MainWindow R F :=
  { s with m_calibrate := false }

/-- The images of sensor `i` handed to `Calibration::setImage`. -/
def calibImage (s : MainWindow R F) (i : Nat) : CalibImage F :=
  ⟨s.m_calibImgDepth i, s.m_calibImgColor i⟩

/-- One invocation of `Calibration::calibrate` for pair `sp` in attempt `i`: the
two `setImage` calls pass the calibration images of sensors `sp` and `sp + 1`. -/
def invoke (cal : Calibrator R F) (sp i : Nat) (s : MainWindow R F) : CalibCall R F :=
  ⟨sp, i, s.m_calibImgValid sp, s.m_calibImgValid (sp + 1), calibImage s sp,
    calibImage s (sp + 1), cal sp i (calibImage s sp) (calibImage s (sp + 1))⟩

/-- The loop `for (int i = 0; i < 10; ++i)` of one pair, entered with `k`
iterations left and loop counter `i`.  The result is the transformation when an
attempt succeeded, the window, the unused event batches and the invocations. -/
def attemptLoop (cal : Calibrator R F) (sp : Nat) :
    Nat → Nat → MainWindow R F → List (List (Tick F)) →
      Option (Option (Mat4 R) × MainWindow R F × List (List (Tick F)) × List (CalibCall R F))
  | 0, _, s, env => some (none, s, env, [])
  | k + 1, i, s, env =>
    match waitSamples sp (beginCapture sp s) env with
    | none => none
    | some (s2, env2) =>
      let s3 := endCapture s2
      let call := invoke cal sp i s3
      match call.result with
      | some M => some (some M, s3, env2, [call])
      | none =>
        match attemptLoop cal sp k (i + 1) s3 env2 with
        | none => none
        | some (r2, s4, env4, calls) => some (r2, s4, env4, call :: calls)

/-- What a calibration run leaves behind: the window, the flag `okForAll`, the
local vector `T` of pairwise transformations and the invocations of the
calibration routine in order. -/
structure CalibRun (R F : Type) where
  window : MainWindow R F
  okForAll : Bool
  T : Nat → Mat4 R
  calls : List (CalibCall R F)
  pending : List (List (Tick F))

/-- The loop `for (int sp = 0; sp < numSensorPairs; ++sp)`, entered with `k`
pairs left and loop counter `sp`; it is left as soon as a pair has failed. -/
def pairLoop (cal : Calibrator R F) :
    Nat → Nat → MainWindow R F → List (List (Tick F)) → (Nat → Mat4 R) → Option (CalibRun R F)
  | 0, _, s, env, T => some ⟨s, true, T, [], env⟩
  | k + 1, sp, s, env, T =>
    match attemptLoop cal sp 10 0 s env with
    | none => none
    | some (some M, s1, env1, calls) =>
      match pairLoop cal k (sp + 1) s1 env1 (Function.update T sp M) with
      | none => none
      | some run => some { run with calls := calls ++ run.calls }
    | some (none, s1, env1, calls) => some ⟨s1, false, T, calls, env1⟩

/-- The loop `m_sensorT[sp + 1] = m_sensorT[sp] * T[sp]` over all pairs. -/
def composeChain [Semiring R] (numSensorPairs : Nat) (T : Nat → Mat4 R)
    (chain : Nat → Mat4 R) : Nat → Mat4 R :=
  (List.range numSensorPairs).foldl
    (fun ch sp => Function.update ch (sp + 1) (ch sp * T sp)) chain

/-- The slot `performCalibration`, run against the calibration routine `cal` and
the event batches `env` delivered while it waits; `none` when a wait does not
end within `env`.  The local vector `T` starts out as zero matrices. -/
def performCalibration [Semiring R] (cal : Calibrator R F) (s : MainWindow R F)
    (env : List (List (Tick F))) : Option (CalibRun R F) :=
  let numSensors := s.numSensors
  let numSensorPairs := numSensors - 1
  let s0 : MainWindow R F := { s with m_sensorT := setIdentity numSensors s.m_sensorT }
  match pairLoop cal numSensorPairs 0 s0 env (fun _ => 0) with
  | none => none
  | some run =>
    if run.okForAll then
      some { run with
        window := { run.window with
          m_sensorT := composeChain numSensorPairs run.T run.window.m_sensorT } }
    else some run

/-! ## Persistence of the chain -/

/-- Number formatting of the text streams: `put` is `operator<<` for an entry,
`get` the numeric extraction of `operator>>` once leading white space has been
skipped, returning the value and the unread rest. -/
structure NumCodec (R : Type) where
  put : R → List Char
  get : List Char → Option (R × List Char)

/-- White space as skipped by formatted input: space, tab, line feed, vertical
tab, form feed, carriage return. -/
def isSpace (c : Char) : Bool :=
  c.toNat = 32 || (9 ≤ c.toNat && c.toNat ≤ 13)

/-- The line end written by `std::endl`. -/
def endl : Char := Char.ofNat 10

/-- The text written by `saveCalibration` for `n` matrices: every entry followed
by a space, every row followed by a line end. -/
def saveText (codec : NumCodec R) (n : Nat) (T : Nat → Mat4 R) : List Char :=
  (List.range n).foldl (fun out1 i =>
    (List.finRange 4).foldl (fun out2 r =>
      (List.finRange 4).foldl (fun out3 c => out3 ++ codec.put (T i r c) ++ [' ']) out2
        ++ [endl]) out1) []

/-- The slot `saveCalibration`: the text that goes to the chosen file. -/
def saveCalibration (codec : NumCodec R) (s : MainWindow R F) : List Char :=
  saveText codec s.numSensors s.m_sensorT

/-- An input stream: the unread characters and the fail bit. -/
structure IStream where
  buf : List Char
  failbit : Bool

/-- The extraction `in >> x`, `old` being the value of `x` before.  A failed
stream is left alone; at the end of the input the fail bit is set and `x` keeps
its value; an unparsable number sets the fail bit and stores zero. -/
def extract [Zero R] (codec : NumCodec R) (st : IStream) (old : R) : IStream × R :=
  if st.failbit then (st, old)
  else
    let b := st.buf.dropWhile isSpace
    if b.isEmpty then (⟨b, true⟩, old)
    else
      match codec.get b with
      | some (v, rest) => (⟨rest, false⟩, v)
      | none => (⟨b, true⟩, 0)

/-- The statement `in >> tmp[i](r, c)`. -/
def readEntry [Zero R] (codec : NumCodec R) (i : Nat) (r c : Fin 4)
    (p : IStream × (Nat → Mat4 R)) : IStream × (Nat → Mat4 R) :=
  let e := extract codec p.1 (p.2 i r c)
  (e.1, Function.update p.2 i (setEntry (p.2 i) r c e.2))

/-- The loop nest "Load calibration from file" over `n` matrices. -/
def readMatrices [Zero R] (codec : NumCodec R) (n : Nat)
    (p : IStream × (Nat → Mat4 R)) : IStream × (Nat → Mat4 R) :=
  (List.range n).foldl (fun p1 i =>
    (List.finRange 4).foldl (fun p2 r =>
      (List.finRange 4).foldl (fun p3 c => readEntry codec i r c p3) p2) p1) p

/-- How a call of `loadCalibration` ends. -/
inductive LoadResult where
  | cancelled
  | openFailed
  | readError
  | loaded
  deriving DecidableEq, Repr

/-- The slot `loadCalibration`.  `file` is `none` when no file name was chosen,
`some none` when the file could not be opened and `some (some text)` otherwise;
`d` is a default-constructed `Mat4`. -/
def loadCalibration [Zero R] (codec : NumCodec R) (d : Mat4 R)
    (file : Option (Option (List Char))) (s : MainWindow R F) : LoadResult × MainWindow R F :=
  match file with
  | none => (LoadResult.cancelled, s)
  | some none => (LoadResult.openFailed, s)
  | some (some text) =>
    let p := readMatrices codec s.numSensors (⟨text, false⟩, fun _ => d)
    if p.1.failbit then (LoadResult.readError, s)
    else (LoadResult.loaded, { s with m_sensorT := p.2 })

/-- A notion of the statements, not code of the window: the first `k` numeric
tokens of a text, each found after skipping white space; `none` when one of them
is missing or unparsable. -/
def firstTokens (codec : NumCodec R) : Nat → List Char → Option (List R)
  | 0, _ => some []
  | k + 1, b =>
    let b1 := b.dropWhile isSpace
    if b1.isEmpty then none
    else
      match codec.get b1 with
      | none => none
      | some (v, rest) => (firstTokens codec k rest).map (fun vs => v :: vs)

/-! ## Concrete data for the examples -/

/-- A number format with one decimal digit per entry. -/
def digitCodec : NumCodec ℕ where
  put := fun x => [Char.ofNat (48 + x % 10)]
  get := fun b =>
    match b with
    | [] => none
    | c :: rest => if 48 ≤ c.toNat ∧ c.toNat ≤ 57 then some (c.toNat - 48, rest) else none

/-- A window with `n` opened sensors, all images holding `0`, in idle mode, with
chain `T`. -/
def idleWindow (n : Nat) (T : Nat → Mat4 ℕ) : MainWindow ℕ ℕ where
  numSensors := n
  m_reconstruct := false
  m_calibrate := false
  m_rec := none
  m_colorImg := fun i => if i < n then some 0 else none
  m_depthImg := fun i => if i < n then some 0 else none
  m_calibImgColor := fun i => if i < n then some 0 else none
  m_calibImgDepth := fun i => if i < n then some 0 else none
  m_calibImgValid := fun _ => false
  m_sensorT := T
  m_imgLabel := fun _ => none

/-- The pure translation by `(x, y, z)`. -/
def translation (x y z : ℕ) : Mat4 ℕ :=
  !![1, 0, 0, x; 0, 1, 0, y; 0, 0, 1, z; 0, 0, 0, 1]

/-- A tick in which sensor `i` delivers the frame `f i` with result `ok i`. -/
def tickOf (ok : Nat → Bool) (f : Nat → ℕ) : Tick ℕ := fun i => ⟨ok i, f i, f i⟩

/-! ## Dispatch modes and closed forms of the dispatch loop -/

/-- The dispatch loop forwards frames to the reconstruction. -/
def reconMode (s : MainWindow R F) : Bool := s.m_reconstruct && s.m_rec.isSome

/-- The dispatch loop stores frames as calibration samples. -/
def captureMode (s : MainWindow R F) : Bool := !(reconMode s) && s.m_calibrate

/-- The frames that the loop "Process images" hands to the reconstruction when
it has run over the sensors below `k`. -/
def addedFrames (t : Tick F) (s : MainWindow R F) (k : Nat) : List (AddedFrame R F) :=
  ((List.range k).filter (fun i => (t i).ok)).map
    (fun i => ⟨i, s.m_depthImg i, s.m_colorImg i, s.m_sensorT i⟩)

/-- Closed form of the loop "Process images" over the sensors below `k`. -/
def processed (t : Tick F) (s : MainWindow R F) (k : Nat) : MainWindow R F :=
  { s with
    m_rec := if reconMode s then s.m_rec.map (fun fs => fs ++ addedFrames t s k) else s.m_rec
    m_calibImgColor := fun i =>
      if captureMode s = true ∧ i < k ∧ (t i).ok = true then s.m_colorImg i else s.m_calibImgColor i
    m_calibImgDepth := fun i =>
      if captureMode s = true ∧ i < k ∧ (t i).ok = true then s.m_depthImg i else s.m_calibImgDepth i
    m_calibImgValid := fun i =>
      if captureMode s = true ∧ i < k ∧ (t i).ok = true then true else s.m_calibImgValid i
    m_imgLabel := fun i =>
      if i < k ∧ (t i).ok = true then s.m_colorImg i else s.m_imgLabel i }

/-! ## Example windows and ticks -/

/-- Four sensors in calibration capture for the pair of sensors 0 and 1. -/
def captureWindow4 : MainWindow ℕ ℕ := beginCapture 0 (idleWindow 4 (fun _ => 1))

/-- A tick in which the read of sensor 2 fails and sensor `i` delivers frame `i + 5`. -/
def tickFail2 : Tick ℕ := tickOf (fun i => i != 2) (fun i => i + 5)

/-- Two sensors in calibration capture, sensor 1 without image buffers. -/
def windowMissingBuffer : MainWindow ℕ ℕ :=
  { beginCapture 0 (idleWindow 2 (fun _ => 1)) with
    m_colorImg := fun i => if i = 0 then some 0 else none
    m_depthImg := fun i => if i = 0 then some 0 else none }

/-- A tick in which every read succeeds and sensor `i` delivers frame `i + 5`. -/
def tickAllOk : Tick ℕ := tickOf (fun _ => true) (fun i => i + 5)

/-- Two sensors in calibration capture: `m_calibrate` has been set by an attempt
of `performCalibration`. -/
def captureWindow2 : MainWindow ℕ ℕ := beginCapture 0 (idleWindow 2 (fun _ => 1))

/-! ## Invocations of the calibration routine -/

/-- The invocations of the routine for pair `p`, in order. -/
def callsOf (run : CalibRun R F) (p : Nat) : List (CalibCall R F) :=
  run.calls.filter (fun c => decide (c.pair = p))

/-- The retry rule for the invocations `cs` made for pair `p` in the run `run`. -/
def RetryRule (cal : Calibrator R F) (run : CalibRun R F) (p : Nat)
    (cs : List (CalibCall R F)) : Prop :=
  cs.length ≤ 10 ∧
  cs.map (fun c => c.attempt) = List.range cs.length ∧
  (∀ c ∈ cs, c.pair = p ∧ c.result = cal p c.attempt c.img0 c.img1) ∧
  (∀ c ∈ cs.dropLast, c.result = none) ∧
  (∀ c, cs.getLast? = some c → c.result = none →
    cs.length = 10 ∧ run.okForAll = false ∧ ∀ c2 ∈ run.calls, c2.pair ≤ p) ∧
  (∀ c M, cs.getLast? = some c → c.result = some M → run.T p = M)

/-- The dispatch loop can store calibration samples: every sensor has its image
buffers and no reconstruction is going on. -/
def Ready (s : MainWindow R F) : Prop := allBuffers s = true ∧ reconMode s = false

/-- A batch of ticks one of which reads all `n` sensors. -/
def GoodBatch (n : Nat) (b : List (Tick F)) : Prop :=
  ∃ t ∈ b, ∀ i, i < n → (t i).ok = true

/-! ## Example calibration routines -/

/-- A routine that succeeds at once: identity for pair 0, the translation by
`(10, 0, 0)` for every other pair. -/
def calIdentityThenShift : Calibrator ℕ ℕ :=
  fun sp _ _ _ => some (if sp = 0 then 1 else translation 10 0 0)

/-- A routine that fails in the attempts 0 to 8 of every pair and returns the
identity in attempt 9. -/
def calTenthTime : Calibrator ℕ ℕ :=
  fun _ i _ _ => if i < 9 then none else some 1

/-- A routine that returns a translation for pair 0 and fails for every other pair. -/
def calSecondPairFails : Calibrator ℕ ℕ :=
  fun sp _ _ _ => if sp = 0 then some (translation 1 2 3) else none

/-- A tick in which the read of sensor 1 fails and sensor `i` delivers frame `i + 5`. -/
def tickFail1 : Tick ℕ := tickOf (fun i => i != 1) (fun i => i + 5)

/-! ## Text layout and number formats -/

/-- The effect of one extraction on the stream alone. -/
def skipToken [Zero R] (codec : NumCodec R) (st : IStream) : IStream :=
  (extract codec st 0).1

/-- A value whose text is read back as `q x`: the text starts with a character
that is not white space, and the numeric extraction of the text followed by a
space yields `q x` and leaves the space. -/
def RoundTrips (codec : NumCodec R) (q : R → R) (x : R) : Prop :=
  (∃ c cs, codec.put x = c :: cs ∧ isSpace c = false) ∧
  ∀ rest, codec.get (codec.put x ++ ' ' :: rest) = some (q x, ' ' :: rest)

/-- A notion of the statements, the layout of a row: the entries of row `r` in
the columns `cols`, each followed by a space, then `rest`. -/
def entriesText (codec : NumCodec R) (M : Mat4 R) (r : Fin 4) (cols : List (Fin 4))
    (rest : List Char) : List Char :=
  cols.foldr (fun c acc => codec.put (M r c) ++ ' ' :: acc) rest

/-- The rows `rows` of a matrix, each followed by a line end, then `rest`. -/
def rowsText (codec : NumCodec R) (M : Mat4 R) (rows : List (Fin 4)) (rest : List Char) :
    List Char :=
  rows.foldr (fun r acc => entriesText codec M r (List.finRange 4) (endl :: acc)) rest

/-- The matrices of the sensors `is`, then `rest`. -/
def chainText (codec : NumCodec R) (T : Nat → Mat4 R) (is : List Nat) (rest : List Char) :
    List Char :=
  is.foldr (fun i acc => rowsText codec (T i) (List.finRange 4) acc) rest

/-- The chain of two sensors with the identity and the translation by `(1, 2, 3)`. -/
def chainIdShift : Nat → Mat4 ℕ := fun i => if i = 0 then 1 else translation 1 2 3

/-! ## Auxiliary facts: loops over the sensors -/

theorem finRange_four : List.finRange 4 = [0, 1, 2, 3] := rfl

theorem foldl_range_update {α : Type} (f : α → α) (n : Nat) (g : Nat → α) :
    (List.range n).foldl (fun h i => Function.update h i (f (h i))) g =
      fun i => if i < n then f (g i) else g i := by
  induction n with
  | zero => simp
  | succ k ih =>
    rw [List.range_succ, List.foldl_append, ih]
    funext j
    simp only [List.foldl_cons, List.foldl_nil]
    by_cases hj : j = k
    · subst hj; simp
    · rw [Function.update_noteq hj]
      have hlt : j < k + 1 ↔ j < k := by omega
      simp [hlt]

theorem setIdentity_apply [Zero R] [One R] (n : Nat) (T : Nat → Mat4 R) (i : Nat) :
    setIdentity n T i = if i < n then 1 else T i := by
  have key : ∀ (r c : Fin 4) (v : R) (g : Nat → Mat4 R),
      (List.range n).foldl (fun T3 i => Function.update T3 i (setEntry (T3 i) r c v)) g =
        fun i => if i < n then setEntry (g i) r c v else g i :=
    fun r c v g => foldl_range_update (fun M => setEntry M r c v) n g
  unfold setIdentity
  simp only [finRange_four, List.foldl_cons, List.foldl_nil, key]
  by_cases h : i < n
  · simp only [h, if_true]
    ext r c
    fin_cases r <;> fin_cases c <;> simp [setEntry, Matrix.one_apply]
  · simp only [h, if_false]

theorem grabLoop_eq (t : Tick F) (s : MainWindow R F) (k : Nat) :
    (List.range k).foldl (fun s1 i =>
      ({ s1 with
        m_depthImg := Function.update s1.m_depthImg i (some (t i).depth)
        m_colorImg := Function.update s1.m_colorImg i (some (t i).color) } : MainWindow R F)) s =
    { s with
      m_depthImg := fun i => if i < k then some (t i).depth else s.m_depthImg i
      m_colorImg := fun i => if i < k then some (t i).color else s.m_colorImg i } := by
  induction k with
  | zero => simp
  | succ k ih =>
    rw [List.range_succ, List.foldl_append, ih]
    simp only [List.foldl_cons, List.foldl_nil]
    apply MainWindow.ext <;> try rfl
    all_goals
      funext j
      by_cases hj : j = k
      · subst hj; simp
      · have hlt : j < k + 1 ↔ j < k := by omega
        simp [Function.update_noteq hj, hlt]

theorem grabImages_eq (t : Tick F) (s : MainWindow R F) :
    grabImages t s =
    { s with
      m_depthImg := fun i => if i < s.numSensors then some (t i).depth else s.m_depthImg i
      m_colorImg := fun i => if i < s.numSensors then some (t i).color else s.m_colorImg i } :=
  grabLoop_eq t s s.numSensors

theorem addedFrames_succ (t : Tick F) (s : MainWindow R F) (k : Nat) :
    addedFrames t s (k + 1) =
      addedFrames t s k ++
        (if (t k).ok then [⟨k, s.m_depthImg k, s.m_colorImg k, s.m_sensorT k⟩] else []) := by
  unfold addedFrames
  rw [List.range_succ, List.filter_append, List.map_append]
  by_cases h : (t k).ok = true <;> simp [h]

theorem processed_rec_isSome (t : Tick F) (s : MainWindow R F) (k : Nat) :
    (processed t s k).m_rec.isSome = s.m_rec.isSome := by
  simp only [processed]
  split <;> cases s.m_rec <;> simp

theorem processed_reconMode (t : Tick F) (s : MainWindow R F) (k : Nat) :
    reconMode (processed t s k) = reconMode s := by
  unfold reconMode
  rw [processed_rec_isSome]
  rfl

theorem processLoop_eq (t : Tick F) (s : MainWindow R F) (k : Nat) :
    (List.range k).foldl (fun s1 i => processImage (t i).ok s1 i) s = processed t s k := by
  induction k with
  | zero =>
    apply MainWindow.ext <;> simp [processed, addedFrames]
  | succ k ih =>
    rw [List.range_succ, List.foldl_append, ih]
    simp only [List.foldl_cons, List.foldl_nil]
    have hmode := processed_reconMode t s k
    have hlt : ∀ j, j ≠ k → (j < k + 1 ↔ j < k) := fun j hj => by omega
    unfold processImage
    by_cases hok : (t k).ok = true
    · simp only [hok, Bool.not_true, Bool.false_eq_true, if_false]
      have hm2 : ((processed t s k).m_reconstruct && (processed t s k).m_rec.isSome) = reconMode s :=
        hmode
      rw [hm2]
      by_cases hr : reconMode s = true
      · simp only [hr, if_true]
        apply MainWindow.ext <;> try rfl
        · simp only [processed, hr, if_true, addedFrames_succ, hok]
          cases s.m_rec <;> simp
        · simp [processed, captureMode, hr]
        · simp [processed, captureMode, hr]
        · simp [processed, captureMode, hr]
        · funext j
          by_cases hj : j = k
          · subst hj; simp [processed, hok]
          · simp [processed, Function.update_noteq hj, hlt j hj]
      · simp only [hr, Bool.false_eq_true, if_false]
        have hc : (processed t s k).m_calibrate = s.m_calibrate := rfl
        rw [hc]
        have hcap : captureMode s = s.m_calibrate := by simp [captureMode, hr]
        by_cases hcal : s.m_calibrate = true
        · simp only [hcal, if_true]
          apply MainWindow.ext <;> try rfl
          all_goals first
            | (simp [processed, hr, hcal]; done)
            | (funext j
               by_cases hj : j = k
               · subst hj; simp [processed, hok, hcap, hcal]
               · simp [processed, Function.update_noteq hj, hlt j hj])
        · simp only [hcal, Bool.false_eq_true, if_false]
          apply MainWindow.ext <;> try rfl
          · simp [processed, hr]
          · simp [processed, hcap, hcal]
          · simp [processed, hcap, hcal]
          · simp [processed, hcap, hcal]
          · funext j
            by_cases hj : j = k
            · subst hj; simp [processed, hok]
            · simp [processed, Function.update_noteq hj, hlt j hj]
    · simp only [hok, Bool.not_false, if_true]
      have hok2 : (t k).ok = false := by simpa using hok
      apply MainWindow.ext <;> try rfl
      · simp [processed, addedFrames_succ, hok2]
      all_goals
        funext j
        by_cases hj : j = k
        · subst hj; simp [processed, hok2]
        · simp [processed, hlt j hj]

theorem processFrames_eq (s : MainWindow R F) (t : Tick F) :
    processFrames s t =
      if allBuffers s then processed t (grabImages t s) s.numSensors else s := by
  unfold processFrames
  by_cases h : allBuffers s = true
  · simp [h, processLoop_eq]
  · simp [h]

theorem allBuffers_iff (s : MainWindow R F) :
    allBuffers s = true ↔
      ∀ i, i < s.numSensors → (s.m_depthImg i).isSome = true ∧ (s.m_colorImg i).isSome = true := by
  simp [allBuffers, List.all_eq_true]

/-- A tick leaves the sensor count, the mode flags and the chain alone. -/
theorem processFrames_frame (s : MainWindow R F) (t : Tick F) :
    (processFrames s t).numSensors = s.numSensors ∧
    (processFrames s t).m_reconstruct = s.m_reconstruct ∧
    (processFrames s t).m_calibrate = s.m_calibrate ∧
    (processFrames s t).m_sensorT = s.m_sensorT := by
  rw [processFrames_eq]
  by_cases h : allBuffers s = true
  · simp [h, processed, grabImages_eq]
  · simp [h]

theorem processEvents_frame (batch : List (Tick F)) (s : MainWindow R F) :
    (processEvents s batch).numSensors = s.numSensors ∧
    (processEvents s batch).m_sensorT = s.m_sensorT := by
  unfold processEvents
  induction batch generalizing s with
  | nil => simp
  | cons t ts ih =>
    simp only [List.foldl_cons]
    obtain ⟨h1, h2⟩ := ih (processFrames s t)
    obtain ⟨h3, _, _, h4⟩ := processFrames_frame s t
    exact ⟨h1.trans h3, h2.trans h4⟩

theorem grabImages_fields (t : Tick F) (s : MainWindow R F) :
    reconMode (grabImages t s) = reconMode s ∧
    captureMode (grabImages t s) = captureMode s ∧
    (grabImages t s).m_rec = s.m_rec ∧
    (grabImages t s).m_sensorT = s.m_sensorT ∧
    (grabImages t s).m_calibImgValid = s.m_calibImgValid ∧
    (grabImages t s).m_calibImgColor = s.m_calibImgColor ∧
    (grabImages t s).m_calibImgDepth = s.m_calibImgDepth ∧
    (grabImages t s).m_imgLabel = s.m_imgLabel ∧
    ((grabImages t s).m_colorImg =
      fun i => if i < s.numSensors then some (t i).color else s.m_colorImg i) ∧
    ((grabImages t s).m_depthImg =
      fun i => if i < s.numSensors then some (t i).depth else s.m_depthImg i) := by
  rw [grabImages_eq]
  exact ⟨rfl, rfl, rfl, rfl, rfl, rfl, rfl, rfl, rfl, rfl⟩

/-! ## Frame dispatch: the claims -/

/-- C7. In a tick in which every sensor has its image buffers, the action of the
current mode is carried out for exactly the sensors whose read succeeded,
whatever the other reads did: every such sensor gets its image displayed; in
reconstruction mode the frames handed to the reconstruction are those of the
successfully read sensors, in order, each with its chain entry; in calibration
capture mode a successfully read sensor gets the fresh frame as its sample and
its flag set, while sample and flag of a sensor whose read failed are as before;
outside those modes nothing is stored. -/
theorem processFrames_dispatch_per_sensor (s : MainWindow R F) (t : Tick F)
    (hbuf : allBuffers s = true) :
    (∀ i, i < s.numSensors →
      (processFrames s t).m_imgLabel i =
        if (t i).ok = true then some (t i).color else s.m_imgLabel i) ∧
    (reconMode s = true →
      (processFrames s t).m_rec =
        s.m_rec.map (fun fs => fs ++
          ((List.range s.numSensors).filter (fun i => (t i).ok)).map
            (fun i => ⟨i, some (t i).depth, some (t i).color, s.m_sensorT i⟩))) ∧
    (captureMode s = true → ∀ i, i < s.numSensors →
      ((t i).ok = true →
        (processFrames s t).m_calibImgValid i = true ∧
        (processFrames s t).m_calibImgColor i = some (t i).color ∧
        (processFrames s t).m_calibImgDepth i = some (t i).depth) ∧
      ((t i).ok = false →
        (processFrames s t).m_calibImgValid i = s.m_calibImgValid i ∧
        (processFrames s t).m_calibImgColor i = s.m_calibImgColor i ∧
        (processFrames s t).m_calibImgDepth i = s.m_calibImgDepth i)) ∧
    (captureMode s = false →
      (processFrames s t).m_calibImgValid = s.m_calibImgValid ∧
      (processFrames s t).m_calibImgColor = s.m_calibImgColor ∧
      (processFrames s t).m_calibImgDepth = s.m_calibImgDepth) ∧
    (reconMode s = false → (processFrames s t).m_rec = s.m_rec) := by
  obtain ⟨hrm, hcm, hrec, hT, hval, hcc, hcd, hlab, hcol, hdep⟩ := grabImages_fields t s
  rw [processFrames_eq]
  simp only [hbuf, if_true]
  refine ⟨?_, ?_, ?_, ?_, ?_⟩
  · intro i hi
    simp only [processed, hcol, hlab, hi, true_and, if_true]
  · intro hr
    simp only [processed, hrm, hr, if_true, addedFrames, hrec]
    congr 1
    funext fs
    congr 1
    apply List.map_congr_left
    intro i hi
    have hin : i < s.numSensors := by
      have := (List.mem_filter.mp hi).1
      simpa using this
    simp [hcol, hdep, hT, hin]
  · intro hc i hi
    constructor
    · intro hok
      simp [processed, hcm, hc, hi, hok, hcol, hdep]
    · intro hok
      simp [processed, hok, hval, hcc, hcd]
  · intro hc
    simp [processed, hcm, hc, hval, hcc, hcd]
  · intro hr
    simp [processed, hrm, hr, hrec]

/-- Witness for C7: four sensors, the read of sensor 2 fails; sensors 0, 1 and 3
get their flags set, sensor 2 keeps its cleared flag. -/
theorem processFrames_dispatch_per_sensor_witness :
    allBuffers captureWindow4 = true ∧
    (processFrames captureWindow4 tickFail2).m_calibImgValid 0 = true ∧
    (processFrames captureWindow4 tickFail2).m_calibImgValid 1 = true ∧
    (processFrames captureWindow4 tickFail2).m_calibImgValid 3 = true ∧
    (processFrames captureWindow4 tickFail2).m_calibImgValid 2 =
      captureWindow4.m_calibImgValid 2 :=
  have h := (processFrames_dispatch_per_sensor captureWindow4 tickFail2 (by decide)).2.2.1
    (by decide)
  ⟨by decide, ((h 0 (by decide)).1 (by decide)).1, ((h 1 (by decide)).1 (by decide)).1,
    ((h 3 (by decide)).1 (by decide)).1, ((h 2 (by decide)).2 (by decide)).1⟩

/-- C10, counterexample. Sensor 1 has no buffers, sensor 0 has both and its
read would succeed, the window is in calibration capture: sensor 0 is not read
(its buffer still holds the old frame), gets no sample, no flag and no display. -/
theorem processFrames_missing_buffer_counterexample :
    windowMissingBuffer.m_depthImg 0 ≠ none ∧ windowMissingBuffer.m_colorImg 0 ≠ none ∧
    windowMissingBuffer.m_depthImg 1 = none ∧
    (tickAllOk 0).ok = true ∧ captureMode windowMissingBuffer = true ∧
    (processFrames windowMissingBuffer tickAllOk).m_colorImg 0 = some 0 ∧
    (processFrames windowMissingBuffer tickAllOk).m_calibImgValid 0 = false ∧
    (processFrames windowMissingBuffer tickAllOk).m_calibImgColor 0 = some 0 ∧
    (processFrames windowMissingBuffer tickAllOk).m_imgLabel 0 = none := by
  decide

/-- C10, amended. When some sensor has a null depth or colour image the whole
tick is skipped: the window is left exactly as it was, so no sensor is read and
no sensor gets the action of the mode. -/
theorem processFrames_missing_buffer_skips_tick (s : MainWindow R F) (t : Tick F) (j : Nat)
    (hj : j < s.numSensors) (hnull : s.m_depthImg j = none ∨ s.m_colorImg j = none) :
    processFrames s t = s := by
  have hb : allBuffers s = false := by
    cases hall : allBuffers s with
    | false => rfl
    | true =>
      have h := (allBuffers_iff s).mp hall j hj
      rcases hnull with h0 | h0 <;> simp [h0] at h
  simp [processFrames, hb]

/-- Witness for the amended C10. -/
theorem processFrames_missing_buffer_skips_tick_witness :
    (1 < windowMissingBuffer.numSensors ∧ windowMissingBuffer.m_depthImg 1 = none) ∧
    processFrames windowMissingBuffer tickAllOk = windowMissingBuffer :=
  ⟨⟨by decide, by decide⟩,
    processFrames_missing_buffer_skips_tick windowMissingBuffer tickAllOk 1 (by decide)
      (Or.inl (by decide))⟩

/-! ## Mode flags: the claims -/

/-- C6, counterexample. While calibration capture is active, `startReconstruction`
is not rejected: it changes the mode flags and leaves both set; and with the
reconstruction active, the start of a capture sets `m_calibrate` as well. -/
theorem mode_exclusivity_counterexample :
    captureWindow2.m_calibrate = true ∧ captureWindow2.m_reconstruct = false ∧
    (startReconstruction captureWindow2).m_reconstruct = true ∧
    (startReconstruction captureWindow2).m_calibrate = true ∧
    (startReconstruction (idleWindow 2 (fun _ => 1))).m_reconstruct = true ∧
    (beginCapture 0 (startReconstruction (idleWindow 2 (fun _ => 1)))).m_calibrate = true ∧
    (beginCapture 0 (startReconstruction (idleWindow 2 (fun _ => 1)))).m_reconstruct = true := by
  decide

/-- C6, amended. The two mode flags are written independently and nothing is
rejected: `startReconstruction` sets `m_reconstruct` in every state and keeps
`m_calibrate`; `calibrate` clears `m_calibrate`, the start of a capture sets it,
the end of a capture clears it, and all three keep `m_reconstruct`.  The modes
exclude each other only in the dispatch: with both flags set and a
reconstruction object present, a tick stores no calibration sample and sets no
validity flag. -/
theorem mode_flags_independent (s : MainWindow R F) (sp : Nat) (t : Tick F) :
    ((startReconstruction s).m_reconstruct = true ∧
      (startReconstruction s).m_calibrate = s.m_calibrate) ∧
    ((calibrate s).m_calibrate = false ∧ (calibrate s).m_reconstruct = s.m_reconstruct) ∧
    ((beginCapture sp s).m_calibrate = true ∧
      (beginCapture sp s).m_reconstruct = s.m_reconstruct) ∧
    ((endCapture s).m_calibrate = false ∧ (endCapture s).m_reconstruct = s.m_reconstruct) ∧
    (s.m_reconstruct = true → s.m_calibrate = true → s.m_rec.isSome = true →
      (processFrames s t).m_calibImgValid = s.m_calibImgValid ∧
      (processFrames s t).m_calibImgColor = s.m_calibImgColor ∧
      (processFrames s t).m_calibImgDepth = s.m_calibImgDepth) := by
  refine ⟨⟨rfl, rfl⟩, ⟨rfl, rfl⟩, ⟨rfl, rfl⟩, ⟨rfl, rfl⟩, ?_⟩
  intro hr _ hrec
  obtain ⟨_, hcm, _, _, hval, hcc, hcd, _, _, _⟩ := grabImages_fields t s
  have hcap : captureMode s = false := by simp [captureMode, reconMode, hr, hrec]
  rw [processFrames_eq]
  by_cases hb : allBuffers s = true
  · simp [hb, processed, hcm, hcap, hval, hcc, hcd]
  · simp [hb]

/-- Witness for the amended C6: both flags set, reconstruction object present. -/
theorem mode_flags_independent_witness :
    ((startReconstruction captureWindow2).m_reconstruct = true ∧
      (startReconstruction captureWindow2).m_calibrate = true ∧
      (startReconstruction captureWindow2).m_rec.isSome = true) ∧
    (processFrames (startReconstruction captureWindow2) tickAllOk).m_calibImgValid =
      (startReconstruction captureWindow2).m_calibImgValid :=
  ⟨⟨by decide, by decide, by decide⟩,
    ((mode_flags_independent (startReconstruction captureWindow2) 0 tickAllOk).2.2.2.2
      (by decide) (by decide) (by decide)).1⟩

/-! ## Calibration run: auxiliary facts -/

theorem waitSamples_frame (sp : Nat) (env : List (List (Tick F))) :
    ∀ (s s1 : MainWindow R F) (env1 : List (List (Tick F))),
      waitSamples sp s env = some (s1, env1) →
        s1.numSensors = s.numSensors ∧ s1.m_sensorT = s.m_sensorT := by
  induction env with
  | nil =>
    intro s s1 env1 h
    unfold waitSamples at h
    split at h
    · exact absurd h (by simp)
    · simp only [Option.some.injEq, Prod.mk.injEq] at h
      rw [← h.1]; exact ⟨rfl, rfl⟩
  | cons b env ih =>
    intro s s1 env1 h
    unfold waitSamples at h
    split at h
    · obtain ⟨h1, h2⟩ := ih _ _ _ h
      obtain ⟨h3, h4⟩ := processEvents_frame b s
      exact ⟨h1.trans h3, h2.trans h4⟩
    · simp only [Option.some.injEq, Prod.mk.injEq] at h
      rw [← h.1]; exact ⟨rfl, rfl⟩

theorem attemptLoop_succ (cal : Calibrator R F) (sp k i : Nat) (s : MainWindow R F)
    (env : List (List (Tick F)))
    (res : Option (Mat4 R) × MainWindow R F × List (List (Tick F)) × List (CalibCall R F))
    (h : attemptLoop cal sp (k + 1) i s env = some res) :
    ∃ s2 env2, waitSamples sp (beginCapture sp s) env = some (s2, env2) ∧
      ((∃ M, (invoke cal sp i (endCapture s2)).result = some M ∧
          res = (some M, endCapture s2, env2, [invoke cal sp i (endCapture s2)])) ∨
       ((invoke cal sp i (endCapture s2)).result = none ∧
          ∃ r2 s4 env4 calls,
            attemptLoop cal sp k (i + 1) (endCapture s2) env2 = some (r2, s4, env4, calls) ∧
            res = (r2, s4, env4, invoke cal sp i (endCapture s2) :: calls))) := by
  unfold attemptLoop at h
  cases hw : waitSamples sp (beginCapture sp s) env with
  | none => simp [hw] at h
  | some p =>
    obtain ⟨s2, env2⟩ := p
    refine ⟨s2, env2, rfl, ?_⟩
    simp only [hw] at h
    cases hr : (invoke cal sp i (endCapture s2)).result with
    | some M =>
      left
      simp only [hr, Option.some.injEq] at h
      exact ⟨M, rfl, h.symm⟩
    | none =>
      right
      simp only [hr] at h
      cases hrec : attemptLoop cal sp k (i + 1) (endCapture s2) env2 with
      | none => simp [hrec] at h
      | some q =>
        obtain ⟨r2, s4, env4, calls⟩ := q
        simp only [hrec, Option.some.injEq] at h
        exact ⟨rfl, r2, s4, env4, calls, rfl, h.symm⟩

theorem invoke_fields (cal : Calibrator R F) (sp i : Nat) (s : MainWindow R F) :
    (invoke cal sp i s).pair = sp ∧ (invoke cal sp i s).attempt = i ∧
    (invoke cal sp i s).result =
      cal sp (invoke cal sp i s).attempt (invoke cal sp i s).img0 (invoke cal sp i s).img1 :=
  ⟨rfl, rfl, rfl⟩

/-- What the attempt loop of one pair does with `k` iterations left. -/
theorem attemptLoop_spec (cal : Calibrator R F) (sp : Nat) :
    ∀ (k i : Nat) (s : MainWindow R F) (env : List (List (Tick F))) (r : Option (Mat4 R))
      (s1 : MainWindow R F) (env1 : List (List (Tick F))) (calls : List (CalibCall R F)),
      attemptLoop cal sp k i s env = some (r, s1, env1, calls) →
        (s1.numSensors = s.numSensors ∧ s1.m_sensorT = s.m_sensorT) ∧
        calls.map (fun c => c.attempt) = List.range' i calls.length ∧
        calls.length ≤ k ∧
        (∀ c ∈ calls, c.pair = sp ∧ c.result = cal sp c.attempt c.img0 c.img1) ∧
        (r = none → calls.length = k ∧ ∀ c ∈ calls, c.result = none) ∧
        (∀ M, r = some M →
          ∃ init last, calls = init ++ [last] ∧ last.result = some M ∧
            ∀ c ∈ init, c.result = none) := by
  intro k
  induction k with
  | zero =>
    intro i s env r s1 env1 calls h
    simp only [attemptLoop, Option.some.injEq, Prod.mk.injEq] at h
    obtain ⟨hr, hs, _, hc⟩ := h
    subst hr hs hc
    simp
  | succ k ih =>
    intro i s env r s1 env1 calls h
    obtain ⟨s2, env2, hw, hcase⟩ := attemptLoop_succ cal sp k i s env _ h
    obtain ⟨hn, hT⟩ := waitSamples_frame sp env _ _ _ hw
    have hfr : (endCapture s2).numSensors = s.numSensors ∧ (endCapture s2).m_sensorT = s.m_sensorT :=
      ⟨hn, hT⟩
    obtain ⟨hp, ha, hres⟩ := invoke_fields cal sp i (endCapture s2)
    rcases hcase with ⟨M, hM, heq⟩ | ⟨hnone, r2, s4, env4, calls2, hrec, heq⟩
    · simp only [Prod.mk.injEq] at heq
      obtain ⟨hr, hs, _, hc⟩ := heq
      subst hr hs hc
      refine ⟨hfr, by simp [ha], by simp, ?_, by simp, ?_⟩
      · intro c hc
        simp only [List.mem_singleton] at hc
        subst hc
        exact ⟨hp, hres⟩
      · intro M2 hM2
        simp only [Option.some.injEq] at hM2
        subst hM2
        exact ⟨[], _, rfl, hM, by simp⟩
    · simp only [Prod.mk.injEq] at heq
      obtain ⟨hr, hs, _, hc⟩ := heq
      subst hr hs hc
      obtain ⟨⟨hn2, hT2⟩, hatt, hlen, hall, hno, hyes⟩ := ih (i + 1) _ _ _ _ _ _ hrec
      refine ⟨⟨hn2.trans hfr.1, hT2.trans hfr.2⟩, ?_, ?_, ?_, ?_, ?_⟩
      · simp only [List.map_cons, List.length_cons, List.range'_succ, ha, hatt]
      · simp only [List.length_cons]; omega
      · intro c hc
        rcases List.mem_cons.mp hc with h1 | h1
        · subst h1; exact ⟨hp, hres⟩
        · exact hall c h1
      · intro hr
        obtain ⟨h1, h2⟩ := hno hr
        refine ⟨by simp [h1], ?_⟩
        intro c hc
        rcases List.mem_cons.mp hc with h3 | h3
        · subst h3; exact hnone
        · exact h2 c h3
      · intro M hM
        obtain ⟨init, last, h1, h2, h3⟩ := hyes M hM
        refine ⟨invoke cal sp i (endCapture s2) :: init, last, by simp [h1], h2, ?_⟩
        intro c hc
        rcases List.mem_cons.mp hc with h4 | h4
        · subst h4; exact hnone
        · exact h3 c h4

theorem retryRule_nil (cal : Calibrator R F) (run : CalibRun R F) (p : Nat) :
    RetryRule cal run p [] := by
  simp [RetryRule]

theorem pairLoop_succ (cal : Calibrator R F) (k sp : Nat) (s : MainWindow R F)
    (env : List (List (Tick F))) (T : Nat → Mat4 R) (run : CalibRun R F)
    (h : pairLoop cal (k + 1) sp s env T = some run) :
    ∃ r s1 env1 callsA, attemptLoop cal sp 10 0 s env = some (r, s1, env1, callsA) ∧
      ((∃ M run1, r = some M ∧
          pairLoop cal k (sp + 1) s1 env1 (Function.update T sp M) = some run1 ∧
          run = { run1 with calls := callsA ++ run1.calls }) ∨
       (r = none ∧ run = ⟨s1, false, T, callsA, env1⟩)) := by
  unfold pairLoop at h
  cases ha : attemptLoop cal sp 10 0 s env with
  | none => simp [ha] at h
  | some q =>
    obtain ⟨r, s1, env1, callsA⟩ := q
    refine ⟨r, s1, env1, callsA, rfl, ?_⟩
    cases r with
    | none =>
      right
      simp only [ha, Option.some.injEq] at h
      exact ⟨rfl, h.symm⟩
    | some M =>
      left
      simp only [ha] at h
      cases hrec : pairLoop cal k (sp + 1) s1 env1 (Function.update T sp M) with
      | none => simp [hrec] at h
      | some run1 =>
        simp only [hrec, Option.some.injEq] at h
        exact ⟨M, run1, rfl, hrec, h.symm⟩

theorem filter_pair_self (cs : List (CalibCall R F)) (sp : Nat)
    (h : ∀ c ∈ cs, c.pair = sp) : cs.filter (fun c => decide (c.pair = sp)) = cs := by
  rw [List.filter_eq_self]
  intro c hc
  simp [h c hc]

theorem filter_pair_nil (cs : List (CalibCall R F)) (p : Nat)
    (h : ∀ c ∈ cs, c.pair ≠ p) : cs.filter (fun c => decide (c.pair = p)) = [] := by
  rw [List.filter_eq_nil_iff]
  intro c hc
  simp [h c hc]

/-- What the loop over the pairs does, entered with `k` pairs left at pair `sp`. -/
theorem pairLoop_spec (cal : Calibrator R F) :
    ∀ (k sp : Nat) (s : MainWindow R F) (env : List (List (Tick F))) (T : Nat → Mat4 R)
      (run : CalibRun R F),
      pairLoop cal k sp s env T = some run →
        (run.window.numSensors = s.numSensors ∧ run.window.m_sensorT = s.m_sensorT) ∧
        (∀ c ∈ run.calls, sp ≤ c.pair) ∧
        (∀ j, j < sp → run.T j = T j) ∧
        (∀ p, RetryRule cal run p (callsOf run p)) ∧
        (run.okForAll = true → ∀ p, sp ≤ p → p < sp + k →
          ∃ c M, (callsOf run p).getLast? = some c ∧ c.result = some M) := by
  intro k
  induction k with
  | zero =>
    intro sp s env T run h
    simp only [pairLoop, Option.some.injEq] at h
    subst h
    refine ⟨⟨rfl, rfl⟩, by simp, fun _ _ => rfl, ?_, ?_⟩
    · intro p; exact retryRule_nil cal _ p
    · intro _ p h1 h2; omega
  | succ k ih =>
    intro sp s env T run h
    obtain ⟨r, s1, env1, callsA, hA, hcase⟩ := pairLoop_succ cal k sp s env T run h
    obtain ⟨hfrA, hattA, hlenA, hallA, hnoA, hyesA⟩ := attemptLoop_spec cal sp 10 0 _ _ _ _ _ _ hA
    have hpairA : ∀ c ∈ callsA, c.pair = sp := fun c hc => (hallA c hc).1
    rw [← List.range_eq_range'] at hattA
    rcases hcase with ⟨M, run1, hr, hrec, hrun⟩ | ⟨hr, hrun⟩
    · obtain ⟨hfr1, hge1, hT1, hrule1, hok1⟩ := ih (sp + 1) _ _ _ _ hrec
      obtain ⟨init, last, hsplit, hlast, hinit⟩ := hyesA M hr
      have hnil1 : run1.calls.filter (fun c => decide (c.pair = sp)) = [] :=
        filter_pair_nil _ _ (fun c hc => by have := hge1 c hc; omega)
      have hTsp : run1.T sp = M := by
        rw [hT1 sp (by omega)]; simp
      have hcallsSp : callsOf run sp = callsA := by
        simp only [callsOf, hrun, List.filter_append, hnil1, List.append_nil]
        exact filter_pair_self _ _ hpairA
      have hcallsNe : ∀ p, p ≠ sp → callsOf run p = callsOf run1 p := by
        intro p hp
        simp only [callsOf, hrun, List.filter_append]
        rw [filter_pair_nil callsA p (fun c hc => by rw [hpairA c hc]; exact fun h => hp h.symm)]
        rfl
      have hgl : callsA.getLast? = some last := by rw [hsplit]; exact List.getLast?_concat _
      refine ⟨?_, ?_, ?_, ?_, ?_⟩
      · rw [hrun]; exact ⟨hfr1.1.trans hfrA.1, hfr1.2.trans hfrA.2⟩
      · intro c hc
        rw [hrun] at hc
        rcases List.mem_append.mp hc with h1 | h1
        · rw [hpairA c h1]
        · have := hge1 c h1; omega
      · intro j hj
        rw [hrun]
        show run1.T j = T j
        rw [hT1 j (by omega)]
        exact Function.update_noteq (by omega) _ _
      · intro p
        by_cases hp : p = sp
        · subst hp
          rw [hcallsSp]
          refine ⟨hlenA, hattA, hallA, ?_, ?_, ?_⟩
          · intro c hc
            rw [hsplit, List.dropLast_concat] at hc
            exact hinit c hc
          · intro c hc hnone
            rw [hgl] at hc
            simp only [Option.some.injEq] at hc
            subst hc
            rw [hlast] at hnone
            exact absurd hnone (by simp)
          · intro c M2 hc hM2
            rw [hgl] at hc
            simp only [Option.some.injEq] at hc
            subst hc
            rw [hlast] at hM2
            simp only [Option.some.injEq] at hM2
            subst hM2
            rw [hrun]
            exact hTsp
        · rw [hcallsNe p hp]
          obtain ⟨h1, h2, h3, h4, h5, h6⟩ := hrule1 p
          refine ⟨h1, h2, h3, h4, ?_, ?_⟩
          · intro c hc hnone
            obtain ⟨h7, h8, h9⟩ := h5 c hc hnone
            have hcmem : c ∈ callsOf run1 p := List.mem_of_getLast?_eq_some hc
            have hcp : c.pair = p := (h3 c hcmem).1
            have hcge : sp + 1 ≤ c.pair := hge1 c (List.mem_of_mem_filter hcmem)
            refine ⟨h7, by rw [hrun]; exact h8, ?_⟩
            intro c2 hc2
            rw [hrun] at hc2
            rcases List.mem_append.mp hc2 with h10 | h10
            · rw [hpairA c2 h10]; omega
            · exact h9 c2 h10
          · intro c M2 hc hM2
            rw [hrun]
            exact h6 c M2 hc hM2
      · intro hok p hp1 hp2
        by_cases hp : p = sp
        · subst hp
          rw [hcallsSp]
          exact ⟨last, M, hgl, hlast⟩
        · rw [hcallsNe p hp]
          have hok2 : run1.okForAll = true := by rw [hrun] at hok; exact hok
          exact hok1 hok2 p (by omega) (by omega)
    · obtain ⟨hlen10, hnone⟩ := hnoA hr
      have hcallsSp : callsOf run sp = callsA := by
        simp only [callsOf, hrun]
        exact filter_pair_self _ _ hpairA
      have hcallsNe : ∀ p, p ≠ sp → callsOf run p = [] := by
        intro p hp
        simp only [callsOf, hrun]
        exact filter_pair_nil callsA p
          (fun c hc => by rw [hpairA c hc]; exact fun h => hp h.symm)
      refine ⟨?_, ?_, ?_, ?_, ?_⟩
      · rw [hrun]; exact hfrA
      · intro c hc
        rw [hrun] at hc
        rw [hpairA c hc]
      · intro j _
        rw [hrun]
      · intro p
        by_cases hp : p = sp
        · subst hp
          rw [hcallsSp]
          refine ⟨hlenA, hattA, hallA, ?_, ?_, ?_⟩
          · intro c hc
            exact hnone c (List.mem_of_mem_dropLast hc)
          · intro c _ _
            refine ⟨hlen10, by rw [hrun], ?_⟩
            intro c2 hc2
            rw [hrun] at hc2
            rw [hpairA c2 hc2]
          · intro c M2 hc hM2
            have := hnone c (List.mem_of_getLast?_eq_some hc)
            rw [this] at hM2
            exact absurd hM2 (by simp)
        · rw [hcallsNe p hp]
          exact retryRule_nil cal _ p
      · intro hok
        rw [hrun] at hok
        exact absurd hok (by simp)

theorem composeChain_succ [Semiring R] (k : Nat) (T ch : Nat → Mat4 R) :
    composeChain (k + 1) T ch =
      Function.update (composeChain k T ch) (k + 1) (composeChain k T ch k * T k) := by
  unfold composeChain
  rw [List.range_succ, List.foldl_append]
  rfl

theorem composeChain_stable [Semiring R] (T ch : Nat → Mat4 R) (j k : Nat) (hjk : j ≤ k) :
    ∀ m, k ≤ m → composeChain m T ch j = composeChain k T ch j := by
  intro m
  induction m with
  | zero =>
    intro h
    have hk : k = 0 := by omega
    subst hk; rfl
  | succ m ih =>
    intro h
    by_cases hm : k = m + 1
    · subst hm; rfl
    · rw [composeChain_succ, Function.update_noteq (by omega), ih (by omega)]

theorem composeChain_zero [Semiring R] (T ch : Nat → Mat4 R) (m : Nat) :
    composeChain m T ch 0 = ch 0 :=
  composeChain_stable T ch 0 0 (Nat.le_refl 0) m (Nat.zero_le m)

theorem composeChain_step [Semiring R] (T ch : Nat → Mat4 R) (m sp : Nat) (h : sp < m) :
    composeChain m T ch (sp + 1) = composeChain m T ch sp * T sp := by
  rw [composeChain_stable T ch (sp + 1) (sp + 1) (Nat.le_refl _) m (by omega),
    composeChain_stable T ch sp sp (Nat.le_refl _) m (by omega), composeChain_succ,
    Function.update_same]

theorem composeChain_prod [Semiring R] (T ch : Nat → Mat4 R) (m : Nat) (h0 : ch 0 = 1) :
    ∀ k, k ≤ m → composeChain m T ch k = ((List.range k).map T).prod := by
  intro k
  induction k with
  | zero => intro _; rw [composeChain_zero, h0]; simp
  | succ k ih =>
    intro h
    rw [composeChain_step T ch m k (by omega), ih (by omega), List.range_succ, List.map_append,
      List.prod_append]
    simp

theorem performCalibration_inv [Semiring R] (cal : Calibrator R F) (s : MainWindow R F)
    (env : List (List (Tick F))) (run : CalibRun R F)
    (h : performCalibration cal s env = some run) :
    ∃ run0,
      pairLoop cal (s.numSensors - 1) 0
        { s with m_sensorT := setIdentity s.numSensors s.m_sensorT } env (fun _ => 0) = some run0 ∧
      run.okForAll = run0.okForAll ∧ run.T = run0.T ∧ run.calls = run0.calls ∧
      run.window.numSensors = run0.window.numSensors ∧
      run.window.m_sensorT =
        if run0.okForAll = true then
          composeChain (s.numSensors - 1) run0.T run0.window.m_sensorT
        else run0.window.m_sensorT := by
  unfold performCalibration at h
  simp only at h
  cases hp : pairLoop cal (s.numSensors - 1) 0
      { s with m_sensorT := setIdentity s.numSensors s.m_sensorT } env (fun _ => 0) with
  | none => simp [hp] at h
  | some run0 =>
    refine ⟨run0, rfl, ?_⟩
    simp only [hp] at h
    by_cases hok : run0.okForAll = true
    · simp only [hok, if_true, Option.some.injEq] at h
      subst h
      simp [hok]
    · simp only [hok, Bool.false_eq_true, if_false, Option.some.injEq] at h
      subst h
      simp [hok]

/-- After a run, successful or not: the chain is the identity chain when the run
failed and the composed chain when it succeeded. -/
theorem performCalibration_chain [Semiring R] (cal : Calibrator R F) (s : MainWindow R F)
    (env : List (List (Tick F))) (run : CalibRun R F)
    (h : performCalibration cal s env = some run) :
    ∃ run0,
      pairLoop cal (s.numSensors - 1) 0
        { s with m_sensorT := setIdentity s.numSensors s.m_sensorT } env (fun _ => 0) = some run0 ∧
      run.okForAll = run0.okForAll ∧ run.T = run0.T ∧ run.calls = run0.calls ∧
      run.window.m_sensorT =
        if run.okForAll = true then
          composeChain (s.numSensors - 1) run.T (setIdentity s.numSensors s.m_sensorT)
        else setIdentity s.numSensors s.m_sensorT := by
  obtain ⟨run0, hp, hok, hT, hcalls, _, hch⟩ := performCalibration_inv cal s env run h
  obtain ⟨⟨_, hfr⟩, _⟩ := pairLoop_spec cal _ _ _ _ _ _ hp
  refine ⟨run0, hp, hok, hT, hcalls, ?_⟩
  rw [hch, hok, hT, hfr]

theorem callsOf_congr (run run0 : CalibRun R F) (h : run.calls = run0.calls) (p : Nat) :
    callsOf run p = callsOf run0 p := by
  unfold callsOf; rw [h]

/-- The retry rule holds for every pair of a calibration run. -/
theorem performCalibration_rule [Semiring R] (cal : Calibrator R F) (s : MainWindow R F)
    (env : List (List (Tick F))) (run : CalibRun R F)
    (h : performCalibration cal s env = some run) (p : Nat) :
    RetryRule cal run p (callsOf run p) ∧
    (run.okForAll = true → p + 1 < s.numSensors →
      ∃ c M, (callsOf run p).getLast? = some c ∧ c.result = some M) := by
  obtain ⟨run0, hp, hok, hT, hcalls, _⟩ := performCalibration_chain cal s env run h
  obtain ⟨_, _, _, hrule, hall⟩ := pairLoop_spec cal _ _ _ _ _ _ hp
  have hc := callsOf_congr run run0 hcalls p
  constructor
  · have := hrule p
    unfold RetryRule at this ⊢
    rw [hc, hok, hT, hcalls]
    exact this
  · intro hokr hlt
    rw [hc]
    exact hall (by rw [← hok]; exact hokr) p (Nat.zero_le _) (by omega)

theorem last_attempt (cs : List (CalibCall R F)) (c : CalibCall R F)
    (hatt : cs.map (fun c => c.attempt) = List.range cs.length)
    (hlast : cs.getLast? = some c) : c.attempt + 1 = cs.length := by
  obtain ⟨init, hinit⟩ := List.getLast?_eq_some_iff.mp hlast
  subst hinit
  simp only [List.map_append, List.map_cons, List.map_nil, List.length_append,
    List.length_singleton, List.range_succ] at hatt
  have := (List.append_inj' hatt (by simp)).2
  simp only [List.cons.injEq, and_true] at this
  simp [this]

theorem exists_getLast (cs : List (CalibCall R F)) (h : cs ≠ []) :
    ∃ c, cs.getLast? = some c := by
  cases hc : cs.getLast? with
  | none => exact absurd (List.getLast?_eq_none_iff.mp hc) h
  | some c => exact ⟨c, rfl⟩

/-! ## Calibration run: the waits end when the sensors deliver frames -/

theorem grabImages_frame (t : Tick F) (s : MainWindow R F) :
    (grabImages t s).numSensors = s.numSensors ∧
    (grabImages t s).m_calibrate = s.m_calibrate := by
  rw [grabImages_eq]
  exact ⟨rfl, rfl⟩

theorem processFrames_ready (s : MainWindow R F) (t : Tick F) (h : Ready s) :
    Ready (processFrames s t) ∧ (processFrames s t).numSensors = s.numSensors ∧
    (processFrames s t).m_calibrate = s.m_calibrate ∧
    (∀ i, s.m_calibImgValid i = true → (processFrames s t).m_calibImgValid i = true) ∧
    (s.m_calibrate = true → ∀ i, i < s.numSensors → (t i).ok = true →
      (processFrames s t).m_calibImgValid i = true) := by
  obtain ⟨hb, hr⟩ := h
  obtain ⟨hrm, hcm, hrec, hT, hval, hcc, hcd, hlab, hcol, hdep⟩ := grabImages_fields t s
  obtain ⟨hgn, hgc⟩ := grabImages_frame t s
  have hcap : captureMode s = s.m_calibrate := by simp [captureMode, hr]
  rw [processFrames_eq]
  simp only [hb, if_true]
  refine ⟨⟨?_, ?_⟩, hgn, hgc, ?_, ?_⟩
  · rw [allBuffers_iff]
    intro i hi
    have hi2 : i < s.numSensors := by rw [← hgn]; exact hi
    simp [processed, hcol, hdep, hi2]
  · rw [processed_reconMode, hrm, hr]
  · intro i hi
    simp [processed, hval, hi]
  · intro hc i hi hok
    simp [processed, hcm, hcap, hc, hi, hok]

theorem processEvents_ready (batch : List (Tick F)) :
    ∀ s : MainWindow R F, Ready s →
      Ready (processEvents s batch) ∧ (processEvents s batch).numSensors = s.numSensors ∧
      (processEvents s batch).m_calibrate = s.m_calibrate ∧
      (∀ i, s.m_calibImgValid i = true → (processEvents s batch).m_calibImgValid i = true) ∧
      (s.m_calibrate = true → GoodBatch s.numSensors batch → ∀ i, i < s.numSensors →
        (processEvents s batch).m_calibImgValid i = true) := by
  induction batch with
  | nil =>
    intro s h
    refine ⟨h, rfl, rfl, fun _ hi => hi, ?_⟩
    intro _ hg
    obtain ⟨t, ht, _⟩ := hg
    simp at ht
  | cons t ts ih =>
    intro s h
    obtain ⟨h1, hn1, hc1, hm1, hs1⟩ := processFrames_ready s t h
    obtain ⟨h2, hn2, hc2, hm2, hs2⟩ := ih (processFrames s t) h1
    have hpe : processEvents s (t :: ts) = processEvents (processFrames s t) ts := rfl
    rw [hpe]
    refine ⟨h2, hn2.trans hn1, hc2.trans hc1, fun i hi => hm2 i (hm1 i hi), ?_⟩
    intro hc hg i hi
    obtain ⟨t2, ht2, hok⟩ := hg
    rcases List.mem_cons.mp ht2 with heq | hmem
    · subst heq
      exact hm2 i (hs1 hc i hi (hok i hi))
    · exact hs2 (hc1.trans hc) ⟨t2, hmem, by rw [hn1]; exact hok⟩ i (by rw [hn1]; exact hi)

theorem waitSamples_valid (sp : Nat) (s : MainWindow R F) (env : List (List (Tick F)))
    (h : s.m_calibImgValid sp = true) : waitSamples sp s env = some (s, env) := by
  cases env <;> simp [waitSamples, h]

theorem beginCapture_wait (sp : Nat) (s : MainWindow R F) (b : List (Tick F))
    (env : List (List (Tick F))) (h : Ready s) (hsp : sp < s.numSensors)
    (hg : GoodBatch s.numSensors b) :
    ∃ s2, waitSamples sp (beginCapture sp s) (b :: env) = some (s2, env) ∧ Ready s2 ∧
      s2.numSensors = s.numSensors := by
  have hready : Ready (beginCapture sp s) := h
  have hcal : (beginCapture sp s).m_calibrate = true := rfl
  have hv0 : (beginCapture sp s).m_calibImgValid sp = false := by
    simp [beginCapture]
  have hv1 : (beginCapture sp s).m_calibImgValid (sp + 1) = false := by
    simp [beginCapture]
  obtain ⟨h2, hn2, _, _, hs2⟩ := processEvents_ready b (beginCapture sp s) hready
  have hset := hs2 hcal hg sp hsp
  refine ⟨processEvents (beginCapture sp s) b, ?_, h2, hn2⟩
  rw [waitSamples]
  simp only [hv0, hv1, Bool.not_false, Bool.and_self, if_true]
  exact waitSamples_valid sp _ env hset

theorem attemptLoop_returns (cal : Calibrator R F) (sp : Nat) :
    ∀ (k i : Nat) (s : MainWindow R F) (env : List (List (Tick F))),
      Ready s → sp < s.numSensors → (∀ b ∈ env, GoodBatch s.numSensors b) → k ≤ env.length →
      ∃ r s1 env1 calls, attemptLoop cal sp k i s env = some (r, s1, env1, calls) ∧
        Ready s1 ∧ s1.numSensors = s.numSensors ∧ env.length ≤ env1.length + k ∧
        ∀ b ∈ env1, GoodBatch s.numSensors b := by
  intro k
  induction k with
  | zero =>
    intro i s env h _ hg _
    exact ⟨none, s, env, [], rfl, h, rfl, by omega, hg⟩
  | succ k ih =>
    intro i s env h hsp hg hlen
    cases env with
    | nil => simp at hlen
    | cons b env =>
      obtain ⟨s2, hw, h2, hn2⟩ := beginCapture_wait sp s b env h hsp
        (hg b (List.mem_cons_self b env))
      have hg2 : ∀ b2 ∈ env, GoodBatch s.numSensors b2 :=
        fun b2 hb2 => hg b2 (List.mem_cons_of_mem b hb2)
      have h3 : Ready (endCapture s2) := h2
      have hn3 : (endCapture s2).numSensors = s.numSensors := hn2
      unfold attemptLoop
      simp only [hw]
      cases hr : (invoke cal sp i (endCapture s2)).result with
      | some M =>
        exact ⟨some M, endCapture s2, env, _, rfl, h3, hn3, by simp, hg2⟩
      | none =>
        simp only [List.length_cons] at hlen
        obtain ⟨r, s4, env4, calls, hrec, h4, hn4, hl4, hg4⟩ :=
          ih (i + 1) (endCapture s2) env h3 (by rw [hn3]; exact hsp)
            (by rw [hn3]; exact hg2) (by omega)
        simp only [hrec]
        refine ⟨r, s4, env4, _, rfl, h4, hn4.trans hn3, ?_, ?_⟩
        · simp only [List.length_cons]; omega
        · rw [← hn3]; exact hg4

theorem pairLoop_returns (cal : Calibrator R F) :
    ∀ (k sp : Nat) (s : MainWindow R F) (env : List (List (Tick F))) (T : Nat → Mat4 R),
      Ready s → (k = 0 ∨ sp + k < s.numSensors) → (∀ b ∈ env, GoodBatch s.numSensors b) →
      10 * k ≤ env.length → (pairLoop cal k sp s env T).isSome = true := by
  intro k
  induction k with
  | zero => intro sp s env T _ _ _ _; rfl
  | succ k ih =>
    intro sp s env T h hk hg hlen
    have hsp : sp < s.numSensors := by omega
    obtain ⟨r, s1, env1, calls, ha, h1, hn1, hl1, hg1⟩ :=
      attemptLoop_returns cal sp 10 0 s env h hsp hg (by omega)
    unfold pairLoop
    simp only [ha]
    cases r with
    | none => rfl
    | some M =>
      have hrec := ih (sp + 1) s1 env1 (Function.update T sp M) h1
        (Or.inr (by rw [hn1]; omega)) (by rw [hn1]; exact hg1) (by omega)
      obtain ⟨run1, hrun1⟩ := Option.isSome_iff_exists.mp hrec
      simp only [hrun1, Option.isSome_some]

/-- A run of `performCalibration` returns when every sensor has its image
buffers, no reconstruction is going on and the environment holds ten batches of
ticks per pair, each batch with a tick that reads all sensors. -/
theorem performCalibration_returns [Semiring R] (cal : Calibrator R F) (s : MainWindow R F)
    (env : List (List (Tick F))) (h : Ready s)
    (hg : ∀ b ∈ env, GoodBatch s.numSensors b)
    (hlen : 10 * (s.numSensors - 1) ≤ env.length) :
    (performCalibration cal s env).isSome = true := by
  have h0 : Ready ({ s with m_sensorT := setIdentity s.numSensors s.m_sensorT } :
      MainWindow R F) := h
  have hp := pairLoop_returns cal (s.numSensors - 1) 0
    { s with m_sensorT := setIdentity s.numSensors s.m_sensorT } env (fun _ => 0) h0
    (by
      by_cases hz : s.numSensors - 1 = 0
      · exact Or.inl hz
      · right
        show 0 + (s.numSensors - 1) < s.numSensors
        omega)
    hg hlen
  obtain ⟨run0, hrun0⟩ := Option.isSome_iff_exists.mp hp
  unfold performCalibration
  simp only [hrun0]
  by_cases hok : run0.okForAll = true <;> simp [hok]

/-! ## Calibration run: the claims -/

/-- C1. After a run of `performCalibration` over at least two sensors in which
every pair succeeded, whatever the chain held before: entry 0 of the chain is
the identity, every entry `sp + 1` is the matrix product of entry `sp` and the
pairwise transformation `T[sp]`, so that entry `k` is the product
`T[0] * ... * T[k-1]`, and `T[sp]` is what the calibration routine returned in
its last invocation for pair `sp`. -/
theorem performCalibration_composition [Semiring R] (cal : Calibrator R F)
    (s : MainWindow R F) (env : List (List (Tick F))) (run : CalibRun R F)
    (hN : 2 ≤ s.numSensors) (hrun : performCalibration cal s env = some run)
    (hok : run.okForAll = true) :
    run.window.m_sensorT 0 = 1 ∧
    (∀ sp, sp + 1 < s.numSensors →
      run.window.m_sensorT (sp + 1) = run.window.m_sensorT sp * run.T sp) ∧
    (∀ k, k < s.numSensors → run.window.m_sensorT k = ((List.range k).map run.T).prod) ∧
    (∀ sp, sp + 1 < s.numSensors →
      ∃ c, (callsOf run sp).getLast? = some c ∧ c.result = some (run.T sp)) := by
  obtain ⟨run0, _, _, _, _, hch⟩ := performCalibration_chain cal s env run hrun
  simp only [hok, if_true] at hch
  have h0 : setIdentity s.numSensors s.m_sensorT 0 = 1 := by
    rw [setIdentity_apply]; simp; omega
  refine ⟨?_, ?_, ?_, ?_⟩
  · rw [hch, composeChain_zero, h0]
  · intro sp hsp
    rw [hch]
    exact composeChain_step _ _ _ sp (by omega)
  · intro k hk
    rw [hch]
    exact composeChain_prod _ _ _ h0 k (by omega)
  · intro sp hsp
    obtain ⟨hrule, hlast⟩ := performCalibration_rule cal s env run hrun sp
    obtain ⟨c, M, hc, hM⟩ := hlast hok hsp
    refine ⟨c, hc, ?_⟩
    rw [hM, hrule.2.2.2.2.2 c M hc hM]

/-- Witness for C1: three sensors, a prior chain of sevens, both pairs succeed at
the first attempt; the chain becomes identity, identity, translation. -/
theorem performCalibration_composition_witness :
    ∃ run, performCalibration calIdentityThenShift (idleWindow 3 (fun _ => 7))
        [[tickAllOk], [tickAllOk]] = some run ∧
      run.okForAll = true ∧ run.window.m_sensorT 0 = 1 ∧ run.window.m_sensorT 1 = 1 ∧
      run.window.m_sensorT 2 = translation 10 0 0 := by
  have hsome : (performCalibration calIdentityThenShift (idleWindow 3 (fun _ => 7))
      [[tickAllOk], [tickAllOk]]).isSome = true := by decide
  obtain ⟨run, hrun⟩ := Option.isSome_iff_exists.mp hsome
  have hok : run.okForAll = true := by
    have h : (performCalibration calIdentityThenShift (idleWindow 3 (fun _ => 7))
        [[tickAllOk], [tickAllOk]]).map (fun r => r.okForAll) = some true := by decide
    rw [hrun] at h; simpa using h
  have hT : run.T 0 = 1 ∧ run.T 1 = translation 10 0 0 := by
    have h : (performCalibration calIdentityThenShift (idleWindow 3 (fun _ => 7))
        [[tickAllOk], [tickAllOk]]).map (fun r => (r.T 0, r.T 1)) =
        some (1, translation 10 0 0) := by
      rfl
    rw [hrun] at h
    simpa using h
  obtain ⟨h0, hstep, _, _⟩ := performCalibration_composition calIdentityThenShift
    (idleWindow 3 (fun _ => 7)) [[tickAllOk], [tickAllOk]] run (by decide) hrun hok
  have h1 : run.window.m_sensorT 1 = 1 := by
    rw [hstep 0 (by decide), h0, hT.1, one_mul]
  have h2 : run.window.m_sensorT 2 = translation 10 0 0 := by
    rw [hstep 1 (by decide), h1, hT.2, one_mul]
  exact ⟨run, hrun, hok, h0, h1, h2⟩

/-- C2. In a run of `performCalibration` whose waits all end, the invocations of
the calibration routine for a pair `sp` (`callsOf run sp`) are the attempts
`0, 1, 2, ...` in order, at most 10 of them, each on the calibration images of
the two sensors; all but the last failed, and a failed last one is the tenth.
If the routine fails in the attempts 0 to 8 and succeeds in attempt 9, a pair
that is reached gets exactly 10 invocations and the result of the tenth as
`T[sp]`.  If the routine fails in all ten attempts, a pair that is reached gets
exactly 10 invocations, the run reports failure, and no pair after `sp` has an
invocation. -/
theorem performCalibration_retry_bound [Semiring R] (cal : Calibrator R F)
    (s : MainWindow R F) (env : List (List (Tick F))) (run : CalibRun R F)
    (hrun : performCalibration cal s env = some run) (sp : Nat) :
    (callsOf run sp).length ≤ 10 ∧
    (callsOf run sp).map (fun c => c.attempt) = List.range (callsOf run sp).length ∧
    (∀ c ∈ callsOf run sp, c.result = cal sp c.attempt c.img0 c.img1) ∧
    (∀ c ∈ (callsOf run sp).dropLast, c.result = none) ∧
    (∀ c, (callsOf run sp).getLast? = some c → c.result = none →
      (callsOf run sp).length = 10) ∧
    (callsOf run sp ≠ [] → (∀ i, i < 9 → ∀ a b, cal sp i a b = none) →
      (∀ a b, (cal sp 9 a b).isSome = true) →
      (callsOf run sp).length = 10 ∧
      ∃ c, (callsOf run sp).getLast? = some c ∧ c.attempt = 9 ∧ c.result = some (run.T sp)) ∧
    (callsOf run sp ≠ [] → (∀ i, i < 10 → ∀ a b, cal sp i a b = none) →
      (callsOf run sp).length = 10 ∧ run.okForAll = false ∧
      ∀ c ∈ run.calls, c.pair ≤ sp) := by
  obtain ⟨⟨hlen, hatt, hall, hdrop, hfail, hT⟩, _⟩ :=
    performCalibration_rule cal s env run hrun sp
  refine ⟨hlen, hatt, fun c hc => (hall c hc).2, hdrop, fun c hc hn => (hfail c hc hn).1, ?_, ?_⟩
  · intro hne h9 h10
    obtain ⟨c, hc⟩ := exists_getLast _ hne
    have hca := last_attempt _ c hatt hc
    have hres := (hall c (List.mem_of_getLast?_eq_some hc)).2
    cases hr : c.result with
    | none =>
      have hl := (hfail c hc hr).1
      have h9a : c.attempt = 9 := by omega
      rw [hres, h9a] at hr
      have := h10 c.img0 c.img1
      rw [hr] at this
      exact absurd this (by simp)
    | some M =>
      have h9a : c.attempt = 9 := by
        by_contra hne9
        have hlt : c.attempt < 9 := by omega
        rw [hres, h9 c.attempt hlt] at hr
        exact absurd hr (by simp)
      refine ⟨by omega, c, hc, h9a, ?_⟩
      rw [hT c M hc hr]
      exact hr
  · intro hne hnever
    obtain ⟨c, hc⟩ := exists_getLast _ hne
    have hca := last_attempt _ c hatt hc
    have hres := (hall c (List.mem_of_getLast?_eq_some hc)).2
    have hr : c.result = none := by
      rw [hres]; exact hnever c.attempt (by omega) _ _
    exact hfail c hc hr

/-- Witness for C2: two sensors and a routine that succeeds at the tenth attempt;
the pair gets 10 invocations and the run succeeds. -/
theorem performCalibration_retry_bound_witness :
    ∃ run, performCalibration calTenthTime (idleWindow 2 (fun _ => 7))
        (List.replicate 10 [tickAllOk]) = some run ∧
      (callsOf run 0).length = 10 ∧ run.okForAll = true := by
  have hsome : (performCalibration calTenthTime (idleWindow 2 (fun _ => 7))
      (List.replicate 10 [tickAllOk])).isSome = true := by decide
  obtain ⟨run, hrun⟩ := Option.isSome_iff_exists.mp hsome
  have hfacts : (callsOf run 0).length ≠ 0 ∧ run.okForAll = true := by
    have h : (performCalibration calTenthTime (idleWindow 2 (fun _ => 7))
        (List.replicate 10 [tickAllOk])).map
          (fun r => (decide ((callsOf r 0).length ≠ 0), r.okForAll)) = some (true, true) := by
      decide
    rw [hrun] at h
    simpa using h
  have hne : callsOf run 0 ≠ [] := fun h0 => hfacts.1 (by rw [h0]; rfl)
  have h := (performCalibration_retry_bound calTenthTime (idleWindow 2 (fun _ => 7))
    (List.replicate 10 [tickAllOk]) run hrun 0).2.2.2.2.2.1 hne
    (fun i hi _ _ => by simp [calTenthTime, hi]) (fun _ _ => by simp [calTenthTime])
  exact ⟨run, hrun, h.1, hfacts.2⟩

/-- C3. A run of `performCalibration` in which some pair used up its ten attempts
reports failure and leaves every one of the chain entries equal to the
identity, whatever the chain held before and however many pairs had succeeded. -/
theorem performCalibration_failure_identity [Semiring R] (cal : Calibrator R F)
    (s : MainWindow R F) (env : List (List (Tick F))) (run : CalibRun R F)
    (hrun : performCalibration cal s env = some run) (sp : Nat)
    (hlen : (callsOf run sp).length = 10)
    (hfail : ∀ c ∈ callsOf run sp, c.result = none) :
    run.okForAll = false ∧ ∀ i, i < s.numSensors → run.window.m_sensorT i = 1 := by
  obtain ⟨⟨_, _, _, _, hex, _⟩, _⟩ := performCalibration_rule cal s env run hrun sp
  have hne : callsOf run sp ≠ [] := by
    intro h0; rw [h0] at hlen; simp at hlen
  obtain ⟨c, hc⟩ := exists_getLast _ hne
  have hokF : run.okForAll = false :=
    (hex c hc (hfail c (List.mem_of_getLast?_eq_some hc))).2.1
  obtain ⟨run0, _, _, _, _, hch⟩ := performCalibration_chain cal s env run hrun
  refine ⟨hokF, ?_⟩
  intro i hi
  rw [hch, hokF]
  simp only [Bool.false_eq_true, if_false]
  rw [setIdentity_apply]
  simp [hi]

/-- Witness for C3: three sensors, pair 0 succeeds, pair 1 fails ten times; all
three entries are the identity afterwards. -/
theorem performCalibration_failure_identity_witness :
    ∃ run, performCalibration calSecondPairFails (idleWindow 3 (fun _ => 7))
        (List.replicate 11 [tickAllOk]) = some run ∧
      run.okForAll = false ∧ run.window.m_sensorT 0 = 1 ∧ run.window.m_sensorT 1 = 1 ∧
      run.window.m_sensorT 2 = 1 := by
  have hsome : (performCalibration calSecondPairFails (idleWindow 3 (fun _ => 7))
      (List.replicate 11 [tickAllOk])).isSome = true := by decide
  obtain ⟨run, hrun⟩ := Option.isSome_iff_exists.mp hsome
  have hfacts : (callsOf run 1).length = 10 ∧ ∀ c ∈ callsOf run 1, c.result.isNone = true := by
    have h : (performCalibration calSecondPairFails (idleWindow 3 (fun _ => 7))
        (List.replicate 11 [tickAllOk])).map
          (fun r => (decide ((callsOf r 1).length = 10),
            (callsOf r 1).all (fun c => c.result.isNone))) = some (true, true) := by
      decide
    rw [hrun] at h
    simpa using h
  have h := performCalibration_failure_identity calSecondPairFails (idleWindow 3 (fun _ => 7))
    (List.replicate 11 [tickAllOk]) run hrun 1 hfacts.1
    (fun c hc => Option.isNone_iff_eq_none.mp (hfacts.2 c hc))
  exact ⟨run, hrun, h.1, h.2 0 (by decide), h.2 1 (by decide), h.2 2 (by decide)⟩

/-- C8, the code at a failing input. Two sensors, and the only tick during the
wait reads sensor 0 but not sensor 1: the wait ends all the same, and the
calibration routine is invoked with the flag of sensor 1 still cleared and the
old image of sensor 1 as its sample. -/
theorem wait_ends_with_one_sample :
    (performCalibration calIdentityThenShift (idleWindow 2 (fun _ => 1)) [[tickFail1]]).map
      (fun run => run.calls.map
        (fun c => (c.pair, c.attempt, c.valid0, c.valid1, c.img0.color, c.img1.color))) =
      some [(0, 0, true, false, some 5, some 0)] := by
  rfl

/-! ## Persistence: auxiliary facts -/

theorem extract_stream [Zero R] (codec : NumCodec R) (st : IStream) (old : R) :
    (extract codec st old).1 = skipToken codec st := by
  unfold skipToken extract
  by_cases hf : st.failbit = true
  · simp [hf]
  · simp only [hf, Bool.false_eq_true, if_false]
    by_cases he : (List.dropWhile isSpace st.buf).isEmpty = true
    · simp only [he, if_true]
    · simp only [he, Bool.false_eq_true, if_false]

theorem skipToken_cases [Zero R] (codec : NumCodec R) (b : List Char) :
    ((List.dropWhile isSpace b).isEmpty = true ∧
      skipToken codec ⟨b, false⟩ = ⟨List.dropWhile isSpace b, true⟩) ∨
    ((List.dropWhile isSpace b).isEmpty = false ∧
      codec.get (List.dropWhile isSpace b) = none ∧
      skipToken codec ⟨b, false⟩ = ⟨List.dropWhile isSpace b, true⟩) ∨
    (∃ v rest, (List.dropWhile isSpace b).isEmpty = false ∧
      codec.get (List.dropWhile isSpace b) = some (v, rest) ∧
      skipToken codec ⟨b, false⟩ = ⟨rest, false⟩) := by
  unfold skipToken extract
  simp only [Bool.false_eq_true, if_false]
  cases he : (List.dropWhile isSpace b).isEmpty with
  | true => left; simp
  | false =>
    right
    cases hg : codec.get (List.dropWhile isSpace b) with
    | none => left; simp
    | some p => right; exact ⟨p.1, p.2, rfl, rfl, by simp⟩

theorem skipToken_failed [Zero R] (codec : NumCodec R) (st : IStream)
    (h : st.failbit = true) : skipToken codec st = st := by
  unfold skipToken extract
  simp [h]

theorem fold_stream {α σ : Type} (skip : IStream → IStream) (step : IStream × σ → α → IStream × σ)
    (hstep : ∀ p x, (step p x).1 = skip p.1) (l : List α) :
    ∀ p, (l.foldl step p).1 = skip^[l.length] p.1 := by
  induction l with
  | nil => intro p; rfl
  | cons x l ih =>
    intro p
    rw [List.foldl_cons, ih, hstep, List.length_cons, Function.iterate_succ_apply]

theorem readMatrices_stream [Zero R] (codec : NumCodec R) (n : Nat)
    (p : IStream × (Nat → Mat4 R)) :
    (readMatrices codec n p).1 = (skipToken codec)^[16 * n] p.1 := by
  have h1 : ∀ (i : Nat) (r : Fin 4) (p3 : IStream × (Nat → Mat4 R)),
      ((List.finRange 4).foldl (fun p3 c => readEntry codec i r c p3) p3).1 =
        (skipToken codec)^[4] p3.1 := by
    intro i r p3
    have := fold_stream (skipToken codec) (fun p3 c => readEntry codec i r c p3)
      (fun p c => extract_stream codec p.1 _) (List.finRange 4) p3
    simpa using this
  have h2 : ∀ (i : Nat) (p2 : IStream × (Nat → Mat4 R)),
      ((List.finRange 4).foldl (fun p2 r =>
        (List.finRange 4).foldl (fun p3 c => readEntry codec i r c p3) p2) p2).1 =
        (skipToken codec)^[16] p2.1 := by
    intro i p2
    have := fold_stream ((skipToken codec)^[4])
      (fun p2 r => (List.finRange 4).foldl (fun p3 c => readEntry codec i r c p3) p2)
      (fun p r => h1 i r p) (List.finRange 4) p2
    rw [this, List.length_finRange, ← Function.iterate_mul]
  have h3 := fold_stream ((skipToken codec)^[16])
    (fun p1 i => (List.finRange 4).foldl (fun p2 r =>
      (List.finRange 4).foldl (fun p3 c => readEntry codec i r c p3) p2) p1)
    (fun p i => h2 i p) (List.range n) p
  unfold readMatrices
  rw [h3, List.length_range, ← Function.iterate_mul]

theorem skipToken_iterate_failed [Zero R] (codec : NumCodec R) (st : IStream)
    (h : st.failbit = true) (k : Nat) : (skipToken codec)^[k] st = st :=
  Function.iterate_fixed (skipToken_failed codec st h) k

theorem firstTokens_none_fails [Zero R] (codec : NumCodec R) :
    ∀ (k : Nat) (b : List Char), firstTokens codec k b = none →
      ((skipToken codec)^[k] ⟨b, false⟩).failbit = true := by
  intro k
  induction k with
  | zero => intro b h; simp [firstTokens] at h
  | succ k ih =>
    intro b h
    rw [Function.iterate_succ_apply]
    unfold firstTokens at h
    simp only at h
    rcases skipToken_cases codec b with ⟨_, hs⟩ | ⟨_, _, hs⟩ | ⟨v, rest, he, hg, hs⟩
    · rw [hs, skipToken_iterate_failed codec _ rfl]
    · rw [hs, skipToken_iterate_failed codec _ rfl]
    · rw [hs]
      simp only [he, Bool.false_eq_true, if_false, hg, Option.map_eq_none'] at h
      exact ih rest h

theorem entries_foldl (codec : NumCodec R) (M : Mat4 R) (r : Fin 4) (rest : List Char) :
    ∀ (cols : List (Fin 4)) (out : List Char),
      cols.foldl (fun out3 c => out3 ++ codec.put (M r c) ++ [' ']) out ++ rest =
        out ++ entriesText codec M r cols rest := by
  intro cols
  induction cols with
  | nil => intro out; rfl
  | cons c cols ih =>
    intro out
    rw [List.foldl_cons, ih]
    simp [entriesText, List.append_assoc]

theorem rows_foldl (codec : NumCodec R) (M : Mat4 R) (rest : List Char) :
    ∀ (rows : List (Fin 4)) (out : List Char),
      rows.foldl (fun out2 r =>
        (List.finRange 4).foldl (fun out3 c => out3 ++ codec.put (M r c) ++ [' ']) out2
          ++ [endl]) out ++ rest =
        out ++ rowsText codec M rows rest := by
  intro rows
  induction rows with
  | nil => intro out; rfl
  | cons r rows ih =>
    intro out
    rw [List.foldl_cons, ih, List.append_assoc, entries_foldl]
    simp [rowsText]

theorem chain_foldl (codec : NumCodec R) (T : Nat → Mat4 R) (rest : List Char) :
    ∀ (is : List Nat) (out : List Char),
      is.foldl (fun out1 i =>
        (List.finRange 4).foldl (fun out2 r =>
          (List.finRange 4).foldl (fun out3 c => out3 ++ codec.put (T i r c) ++ [' ']) out2
            ++ [endl]) out1) out ++ rest =
        out ++ chainText codec T is rest := by
  intro is
  induction is with
  | nil => intro out; rfl
  | cons i is ih =>
    intro out
    rw [List.foldl_cons, ih, rows_foldl]
    simp [chainText]

theorem saveText_eq (codec : NumCodec R) (n : Nat) (T : Nat → Mat4 R) :
    saveText codec n T = chainText codec T (List.range n) [] := by
  have h := chain_foldl codec T [] (List.range n) []
  simpa [saveText] using h

theorem isSpace_blank : isSpace ' ' = true := by decide

theorem isSpace_endl : isSpace endl = true := by decide

theorem readEntry_roundTrip [Zero R] (codec : NumCodec R) (q : R → R) (i : Nat) (r c : Fin 4)
    (x : R) (ws rest : List Char) (tmp : Nat → Mat4 R)
    (hws : ∀ ch ∈ ws, isSpace ch = true) (hx : RoundTrips codec q x) :
    readEntry codec i r c (⟨ws ++ (codec.put x ++ ' ' :: rest), false⟩, tmp) =
      (⟨' ' :: rest, false⟩, Function.update tmp i (setEntry (tmp i) r c (q x))) := by
  obtain ⟨⟨ch, cs, hput, hsp⟩, hget⟩ := hx
  have hd : List.dropWhile isSpace (ws ++ (codec.put x ++ ' ' :: rest)) =
      codec.put x ++ ' ' :: rest := by
    rw [List.dropWhile_append_of_pos hws, hput]
    simp [List.dropWhile_cons, hsp]
  have he : (codec.put x ++ ' ' :: rest).isEmpty = false := by
    rw [hput]; rfl
  unfold readEntry extract
  simp only [Bool.false_eq_true, if_false, hd, he, hget (rest)]

theorem entries_roundTrip [Zero R] (codec : NumCodec R) (q : R → R) (i : Nat) (r : Fin 4)
    (M : Mat4 R) (rest : List Char) :
    ∀ (cols : List (Fin 4)) (ws : List Char) (tmp : Nat → Mat4 R),
      (∀ ch ∈ ws, isSpace ch = true) → (∀ c ∈ cols, RoundTrips codec q (M r c)) →
      ∃ ws2, (∀ ch ∈ ws2, isSpace ch = true) ∧
        cols.foldl (fun p3 c => readEntry codec i r c p3)
            (⟨ws ++ entriesText codec M r cols rest, false⟩, tmp) =
          (⟨ws2 ++ rest, false⟩, fun j =>
            if j = i then
              (fun r2 c2 => if r2 = r ∧ c2 ∈ cols then q (M r c2) else tmp i r2 c2)
            else tmp j) := by
  intro cols
  induction cols with
  | nil =>
    intro ws tmp hws _
    refine ⟨ws, hws, ?_⟩
    simp only [List.foldl_nil, entriesText, List.foldr_nil, List.not_mem_nil, and_false,
      if_false, Prod.mk.injEq, true_and]
    funext j
    by_cases hj : j = i
    · subst hj; simp
    · simp [hj]
  | cons c cols ih =>
    intro ws tmp hws hrt
    have hx := hrt c (List.mem_cons_self c cols)
    have hstep := readEntry_roundTrip codec q i r c (M r c) ws
      (entriesText codec M r cols rest) tmp hws hx
    obtain ⟨ws2, hws2, hrec⟩ := ih [' ']
      (Function.update tmp i (setEntry (tmp i) r c (q (M r c))))
      (by intro ch hch; simp only [List.mem_singleton] at hch; rw [hch]; exact isSpace_blank)
      (fun c2 hc2 => hrt c2 (List.mem_cons_of_mem c hc2))
    refine ⟨ws2, hws2, ?_⟩
    have htext : entriesText codec M r (c :: cols) rest =
        codec.put (M r c) ++ ' ' :: entriesText codec M r cols rest := rfl
    rw [List.foldl_cons, htext, hstep]
    simp only [List.singleton_append] at hrec
    rw [hrec]
    simp only [Prod.mk.injEq, true_and]
    funext j
    by_cases hj : j = i
    · subst hj
      simp only [if_true, Function.update_same]
      funext r2 c2
      by_cases hr : r2 = r
      · by_cases hc : c2 = c
        · subst hr hc; simp [setEntry]
        · by_cases hm : c2 ∈ cols
          · simp [hr, hm]
          · simp [hr, hm, hc, setEntry]
      · simp [hr, setEntry]
    · simp [hj, Function.update_noteq hj]

theorem rows_roundTrip [Zero R] (codec : NumCodec R) (q : R → R) (i : Nat) (M : Mat4 R)
    (rest : List Char) :
    ∀ (rows : List (Fin 4)) (ws : List Char) (tmp : Nat → Mat4 R),
      (∀ ch ∈ ws, isSpace ch = true) → (∀ r ∈ rows, ∀ c, RoundTrips codec q (M r c)) →
      ∃ ws2, (∀ ch ∈ ws2, isSpace ch = true) ∧
        rows.foldl (fun p2 r =>
            (List.finRange 4).foldl (fun p3 c => readEntry codec i r c p3) p2)
            (⟨ws ++ rowsText codec M rows rest, false⟩, tmp) =
          (⟨ws2 ++ rest, false⟩, fun j =>
            if j = i then (fun r2 c2 => if r2 ∈ rows then q (M r2 c2) else tmp i r2 c2)
            else tmp j) := by
  intro rows
  induction rows with
  | nil =>
    intro ws tmp hws _
    refine ⟨ws, hws, ?_⟩
    simp only [List.foldl_nil, rowsText, List.foldr_nil, List.not_mem_nil, if_false,
      Prod.mk.injEq, true_and]
    funext j
    by_cases hj : j = i
    · subst hj; simp
    · simp [hj]
  | cons r rows ih =>
    intro ws tmp hws hrt
    obtain ⟨ws1, hws1, hrow⟩ := entries_roundTrip codec q i r M
      (endl :: rowsText codec M rows rest) (List.finRange 4) ws tmp hws
      (fun c _ => hrt r (List.mem_cons_self r rows) c)
    have hws1e : ∀ ch ∈ ws1 ++ [endl], isSpace ch = true := by
      intro ch hch
      rcases List.mem_append.mp hch with h1 | h1
      · exact hws1 ch h1
      · simp only [List.mem_singleton] at h1; rw [h1]; exact isSpace_endl
    obtain ⟨ws2, hws2, hrec⟩ := ih (ws1 ++ [endl]) _ hws1e
      (fun r2 hr2 => hrt r2 (List.mem_cons_of_mem r hr2))
    refine ⟨ws2, hws2, ?_⟩
    have htext : rowsText codec M (r :: rows) rest =
        entriesText codec M r (List.finRange 4) (endl :: rowsText codec M rows rest) := rfl
    rw [List.foldl_cons, htext, hrow]
    simp only [List.append_assoc, List.singleton_append] at hrec
    rw [hrec]
    simp only [Prod.mk.injEq, true_and]
    funext j
    by_cases hj : j = i
    · subst hj
      simp only [if_true]
      funext r2 c2
      by_cases hr : r2 = r
      · by_cases hm : r2 ∈ rows
        · simp [hm]
        · simp [hm, hr, List.mem_finRange]
      · simp [hr]
    · simp [hj]

theorem chain_roundTrip [Zero R] (codec : NumCodec R) (q : R → R) (T : Nat → Mat4 R)
    (rest : List Char) :
    ∀ (is : List Nat) (ws : List Char) (tmp : Nat → Mat4 R),
      (∀ ch ∈ ws, isSpace ch = true) → (∀ i ∈ is, ∀ r c, RoundTrips codec q (T i r c)) →
      ∃ ws2, (∀ ch ∈ ws2, isSpace ch = true) ∧
        is.foldl (fun p1 i =>
            (List.finRange 4).foldl (fun p2 r =>
              (List.finRange 4).foldl (fun p3 c => readEntry codec i r c p3) p2) p1)
            (⟨ws ++ chainText codec T is rest, false⟩, tmp) =
          (⟨ws2 ++ rest, false⟩, fun j =>
            if j ∈ is then (fun r c => q (T j r c)) else tmp j) := by
  intro is
  induction is with
  | nil =>
    intro ws tmp hws _
    exact ⟨ws, hws, by simp [chainText]⟩
  | cons i is ih =>
    intro ws tmp hws hrt
    obtain ⟨ws1, hws1, hmat⟩ := rows_roundTrip codec q i (T i) (chainText codec T is rest)
      (List.finRange 4) ws tmp hws (fun r _ c => hrt i (List.mem_cons_self i is) r c)
    obtain ⟨ws2, hws2, hrec⟩ := ih ws1 _ hws1 (fun i2 hi2 => hrt i2 (List.mem_cons_of_mem i hi2))
    refine ⟨ws2, hws2, ?_⟩
    have htext : chainText codec T (i :: is) rest =
        rowsText codec (T i) (List.finRange 4) (chainText codec T is rest) := rfl
    rw [List.foldl_cons, htext, hmat, hrec]
    simp only [Prod.mk.injEq, true_and]
    funext j
    by_cases hm : j ∈ is
    · simp [hm]
    · by_cases hj : j = i
      · subst hj
        simp [hm, List.mem_finRange]
      · simp [hm, hj]

/-- Loading what `saveText` wrote for `n` matrices, with number `n`: the stream
does not fail and the temporary holds the matrices as they are read back. -/
theorem readMatrices_saveText [Zero R] (codec : NumCodec R) (q : R → R) (n : Nat)
    (T tmp : Nat → Mat4 R) (hrt : ∀ i, i < n → ∀ r c, RoundTrips codec q (T i r c)) :
    (readMatrices codec n (⟨saveText codec n T, false⟩, tmp)).1.failbit = false ∧
    (readMatrices codec n (⟨saveText codec n T, false⟩, tmp)).2 =
      fun j => if j < n then (fun r c => q (T j r c)) else tmp j := by
  obtain ⟨ws2, _, h⟩ := chain_roundTrip codec q T [] (List.range n) [] tmp (by simp)
    (fun i hi r c => hrt i (List.mem_range.mp hi) r c)
  rw [List.nil_append, ← saveText_eq] at h
  unfold readMatrices
  rw [h]
  simp

theorem construct_chain [Zero R] [One R] (n : Nat) (hN : 2 ≤ n) (opened : Nat → Bool)
    (blank : F) (d : Mat4 R) :
    ∃ w : MainWindow R F, construct n opened blank d = some w ∧ w.numSensors = n ∧
      ∀ i, i < n → w.m_sensorT i = 1 := by
  have hlt : ¬ n < 2 := by omega
  unfold construct
  simp only [hlt, if_false]
  refine ⟨_, rfl, rfl, ?_⟩
  intro i hi
  simp only [setIdentity_apply, hi, if_true]

theorem digitCodec_roundTrips (x : ℕ) (hx : x < 10) : RoundTrips digitCodec id x := by
  interval_cases x <;> exact ⟨⟨_, [], rfl, by decide⟩, fun _ => rfl⟩

/-! ## Persistence: the claims -/

/-- C4. When the text of the file is truncated or malformed, that is, one of the
first `16 * N` numeric tokens is missing or unparsable, `loadCalibration`
reports a read error and the window, the chain in it included, is the same
after the call as before.  More generally every call of `loadCalibration` that
does not end with the chain loaded leaves the window as it was. -/
theorem loadCalibration_failure_atomic [Zero R] (codec : NumCodec R) (d : Mat4 R)
    (s : MainWindow R F) (text : List Char)
    (h : firstTokens codec (16 * s.numSensors) text = none) :
    loadCalibration codec d (some (some text)) s = (LoadResult.readError, s) ∧
    ∀ file, (loadCalibration codec d file s).1 ≠ LoadResult.loaded →
      (loadCalibration codec d file s).2 = s := by
  have hfail := firstTokens_none_fails codec _ _ h
  constructor
  · unfold loadCalibration
    simp only [readMatrices_stream, hfail, if_true]
  · intro file hne
    unfold loadCalibration at hne ⊢
    rcases file with _ | _ | txt
    · rfl
    · rfl
    · by_cases hf : (readMatrices codec s.numSensors (⟨txt, false⟩, fun _ => d)).1.failbit = true
      · simp only [hf, if_true]
      · simp only [hf, Bool.false_eq_true, if_false, ne_eq, not_true_eq_false] at hne

/-- Witness for C4: four sensors and a file that holds three matrices. -/
theorem loadCalibration_failure_atomic_witness :
    (firstTokens digitCodec 48 (saveText digitCodec 3 (fun _ => 1))).isSome = true ∧
    firstTokens digitCodec (16 * 4) (saveText digitCodec 3 (fun _ => 1)) = none ∧
    loadCalibration digitCodec 0 (some (some (saveText digitCodec 3 (fun _ => 1))))
        (idleWindow 4 (fun _ => 7)) =
      (LoadResult.readError, idleWindow 4 (fun _ => 7)) :=
  ⟨by decide, by decide,
    (loadCalibration_failure_atomic digitCodec 0 (idleWindow 4 (fun _ => 7))
      (saveText digitCodec 3 (fun _ => 1)) (by decide)).1⟩

/-- C5. Let the window `s` save its chain of `N` matrices and let a window `s0`
with the same number of sensors load that text.  If every entry of the chain is
read back from its text as `q` of the entry (`q` being the rounding of the
number format), the load succeeds and entry `(i, r, c)` of the loaded chain is
`q` of entry `(i, r, c)` of the saved chain, for all `i < N`, `r`, `c`.  The text
is made of the matrices of the sensors `0, ..., N-1` in order, each as four rows
ended by a line end, each row as four entries followed by a space. -/
theorem save_load_round_trip [Zero R] (codec : NumCodec R) (q : R → R) (d : Mat4 R)
    (s s0 : MainWindow R F) (hN : s0.numSensors = s.numSensors)
    (hrt : ∀ i, i < s.numSensors → ∀ r c, RoundTrips codec q (s.m_sensorT i r c)) :
    (loadCalibration codec d (some (some (saveCalibration codec s))) s0).1 = LoadResult.loaded ∧
    (∀ i, i < s.numSensors → ∀ r c,
      (loadCalibration codec d (some (some (saveCalibration codec s))) s0).2.m_sensorT i r c =
        q (s.m_sensorT i r c)) ∧
    saveCalibration codec s = chainText codec s.m_sensorT (List.range s.numSensors) [] := by
  obtain ⟨hf, hv⟩ := readMatrices_saveText codec q s.numSensors s.m_sensorT (fun _ => d) hrt
  unfold loadCalibration saveCalibration
  simp only [hN, hf, Bool.false_eq_true, if_false, hv, true_and]
  refine ⟨?_, saveText_eq codec _ _⟩
  intro i hi r c
  simp only [hi, if_true]

theorem chainIdShift_digits (i : Nat) (hi : i < 2) (r c : Fin 4) : chainIdShift i r c < 10 := by
  interval_cases i <;> fin_cases r <;> fin_cases c <;> decide

/-- Witness for C5: two sensors, the identity and a translation, one digit per
entry; the loaded chain has the same entries. -/
theorem save_load_round_trip_witness :
    (loadCalibration digitCodec 0
      (some (some (saveCalibration digitCodec (idleWindow 2 chainIdShift))))
      (idleWindow 2 (fun _ => 7))).1 = LoadResult.loaded ∧
    (loadCalibration digitCodec 0
      (some (some (saveCalibration digitCodec (idleWindow 2 chainIdShift))))
      (idleWindow 2 (fun _ => 7))).2.m_sensorT 1 0 3 = 1 :=
  have h := save_load_round_trip digitCodec id 0 (idleWindow 2 chainIdShift)
    (idleWindow 2 (fun _ => 7)) rfl
    (fun i hi r c => digitCodec_roundTrips _ (chainIdShift_digits i hi r c))
  ⟨h.1, h.2.1 1 (by decide) 0 3⟩

/-! ## The chain invariant -/

/-- C9, counterexample. Two sensors, entry 0 of the chain is the identity; the
file holds two translations by `(1, 2, 3)`.  The load accepts the file, and
entry 0 of the chain is a translation afterwards, not the identity. -/
theorem load_breaks_entry_zero_counterexample :
    (idleWindow 2 (fun _ => 1)).m_sensorT 0 = 1 ∧
    (loadCalibration digitCodec 0
      (some (some (saveText digitCodec 2 (fun _ => translation 1 2 3))))
      (idleWindow 2 (fun _ => 1))).1 = LoadResult.loaded ∧
    (loadCalibration digitCodec 0
      (some (some (saveText digitCodec 2 (fun _ => translation 1 2 3))))
      (idleWindow 2 (fun _ => 1))).2.m_sensorT 0 ≠ 1 := by
  refine ⟨rfl, by decide, ?_⟩
  intro h
  have h03 := congrFun (congrFun h 0) 3
  revert h03
  decide

/-- C9, amended. Entry 0 of the chain is the identity for the freshly
constructed window with `n ≥ 2` sensors, where all `n` entries are the identity,
and after every calibration run, successful or failed.  A load keeps it when the
file was saved from a chain whose entry 0 is the identity and whose entries are
read back from their text, 0 as 0 and 1 as 1. -/
theorem chain_entry_zero [Semiring R] (n : Nat) (hN : 2 ≤ n) (opened : Nat → Bool) (blank : F)
    (d : Mat4 R) (cal : Calibrator R F) (s : MainWindow R F) (hs : s.numSensors = n)
    (env : List (List (Tick F))) (codec : NumCodec R) (q : R → R) (hq0 : q 0 = 0)
    (hq1 : q 1 = 1) (sv s0 : MainWindow R F) (hsv : sv.numSensors = n)
    (hs0 : s0.numSensors = n) (hid : sv.m_sensorT 0 = 1)
    (hrt : ∀ i, i < n → ∀ r c, RoundTrips codec q (sv.m_sensorT i r c)) :
    (∃ w : MainWindow R F, construct n opened blank d = some w ∧
      ∀ i, i < n → w.m_sensorT i = 1) ∧
    (∀ run, performCalibration cal s env = some run → run.window.m_sensorT 0 = 1) ∧
    ((loadCalibration codec d (some (some (saveCalibration codec sv))) s0).1 =
        LoadResult.loaded ∧
      (loadCalibration codec d (some (some (saveCalibration codec sv))) s0).2.m_sensorT 0 = 1) := by
  refine ⟨?_, ?_, ?_⟩
  · obtain ⟨w, hw, _, hall⟩ := construct_chain n hN opened blank d
    exact ⟨w, hw, hall⟩
  · intro run hrun
    obtain ⟨run0, _, _, _, _, hch⟩ := performCalibration_chain cal s env run hrun
    have h0 : setIdentity s.numSensors s.m_sensorT 0 = 1 := by
      rw [setIdentity_apply]; simp; omega
    rw [hch]
    by_cases hok : run.okForAll = true
    · simp only [hok, if_true]; rw [composeChain_zero, h0]
    · simp only [hok, Bool.false_eq_true, if_false]; exact h0
  · obtain ⟨hf, hv⟩ := readMatrices_saveText codec q sv.numSensors sv.m_sensorT
      (fun _ => d) (by rw [hsv]; exact hrt)
    unfold loadCalibration saveCalibration
    simp only [hs0, ← hsv, hf, Bool.false_eq_true, if_false, hv, true_and]
    have hpos : 0 < sv.numSensors := by omega
    simp only [hpos, if_true]
    ext r c
    rw [hid]
    by_cases hrc : r = c
    · subst hrc; simp [hq1]
    · simp [Matrix.one_apply, hrc, hq0]

/-- Witness for the amended C9: two sensors, a run in which the only pair
succeeds at once, and a file saved from the chain of the identity and a
translation. -/
theorem chain_entry_zero_witness :
    (∃ w : MainWindow ℕ ℕ, construct 2 (fun _ => true) 0 0 = some w ∧
      ∀ i, i < 2 → w.m_sensorT i = 1) ∧
    (∀ run, performCalibration calIdentityThenShift (idleWindow 2 (fun _ => 7))
      [[tickAllOk]] = some run → run.window.m_sensorT 0 = 1) ∧
    ((loadCalibration digitCodec 0
        (some (some (saveCalibration digitCodec (idleWindow 2 chainIdShift))))
        (idleWindow 2 (fun _ => 7))).1 = LoadResult.loaded ∧
      (loadCalibration digitCodec 0
        (some (some (saveCalibration digitCodec (idleWindow 2 chainIdShift))))
        (idleWindow 2 (fun _ => 7))).2.m_sensorT 0 = 1) :=
  chain_entry_zero 2 (by decide) (fun _ => true) (0 : ℕ) (0 : Mat4 ℕ) calIdentityThenShift
    (idleWindow 2 (fun _ => 7)) (Eq.refl 2) [[tickAllOk]] digitCodec id (Eq.refl 0) (Eq.refl 1)
    (idleWindow 2 chainIdShift) (idleWindow 2 (fun _ => 7)) (Eq.refl 2) (Eq.refl 2)
    (show chainIdShift 0 = 1 from if_pos (Eq.refl 0))
    (fun i hi r c => digitCodec_roundTrips _ (chainIdShift_digits i hi r c))

end MultiSensor
